import Mathlib

/-!
Verification of the contrast/CVD audit core against its specification.

The repository consists of three Python files:
  * `ui_contrast_audit.py` — color parsing, WCAG contrast, CVD simulation
    wrapper, style-token grouping, per-site vulnerability summary;
  * `report.py` — threshold policy, worst-case/failure classification,
    CVD-only flags, the Component Vulnerability Index (CVI) aggregation;
  * `test_example.py` — an earlier scan script with its own `classify`.

Shallow embedding conventions used throughout this file:
  * Python strings are `String`; a Python `None` string value is embedded
    as `""` (both are falsy in every guard the code performs on them).
  * Python floats are embedded as exact rationals `ℚ`.  All numeric
    literals appearing in the source are decimal, hence exactly
    representable; IEEE rounding of decimal literals is not modelled.
  * WCAG luminance/contrast arithmetic (`relative_luminance`,
    `contrast_ratio`) uses `ℝ` because the gamma step raises to the
    real power 2.4.
  * Fallible code returns `Option`; a raised exception is `Except.error`.
  * RGB components are `Fin 256`: every producer in the program clamps
    (`parse_css_color_to_rgb`) or casts to `uint8` (`simulate_rgb`).
  * The DaltonLens CVD simulator is external to the repository; it is a
    deterministic pure function of (RGB, kind) per the spec, so all
    definitions that need it take it as an explicit parameter
    `sim : RGB → CvdKind → RGB`.  The process-scoped cache of
    `simulate_rgb` is semantically transparent for a deterministic
    simulator and is not modelled.
-/

/-- An RGB triple with components in 0..255, the invariant maintained by
every producer in the program. -/
structure RGB where
  r : Fin 256
  g : Fin 256
  b : Fin 256
deriving DecidableEq

/-- A per-channel mapping from vision type to an optional ratio, embedding
the Python dicts `{"normal": _, "protanopia": _, "deuteranopia": _,
"tritanopia": _}` produced by `contrast_for_all_vision`. -/
structure VisionMap (α : Type) where
  normal : Option α
  protanopia : Option α
  deuteranopia : Option α
  tritanopia : Option α
deriving DecidableEq

/-- The three contrast channels of a style group, embedding the dict
produced by `compute_group_contrasts`; a channel is `none` when it was
not measurable. -/
structure Contrast (α : Type) where
  text_on_bg : Option (VisionMap α)
  border_on_bg : Option (VisionMap α)
  outline_on_bg : Option (VisionMap α)
deriving DecidableEq

/-- The three supported color-vision deficiencies (`DEFICIENCY_MAP` keys). -/
inductive CvdKind where
  | protan
  | deutan
  | tritan
deriving DecidableEq

/-! ### Python string primitives

The Python code uses `str.strip`, `str.lower`, `str.split`, `str.replace`
and `float(...)`.  They are embedded here as structurally recursive
functions on `List Char` so that every definition reduces in the kernel.
-/

/-- Embeds Python `str.strip()` (no argument): remove leading and trailing
whitespace. -/
def trimChars (cs : List Char) : List Char :=
  ((cs.dropWhile Char.isWhitespace).reverse.dropWhile Char.isWhitespace).reverse

/-- Embeds Python `str.lower()` on the character range the program's data
uses (CSS keywords and attribute values are ASCII). -/
def lowerChars (cs : List Char) : List Char :=
  cs.map Char.toLower

/-- Embeds Python `str.split(sep)` for a one-character separator. -/
def splitOnChar (sep : Char) : List Char → List (List Char)
  | [] => [[]]
  | c :: rest =>
    let r := splitOnChar sep rest
    if c = sep then [] :: r
    else
      match r with
      | h :: t => (c :: h) :: t
      | [] => [[c]]

/-- Embeds Python `s.replace("px", "")`: delete every (non-overlapping,
left-to-right) occurrence of `px`. -/
def stripPxAll : List Char → List Char
  | 'p' :: 'x' :: rest => stripPxAll rest
  | c :: rest => c :: stripPxAll rest
  | [] => []

/-- Numeric value of a digit run. -/
def natOfDigits (ds : List Char) : Nat :=
  ds.foldl (fun acc ch => acc * 10 + (ch.toNat - '0'.toNat)) 0

/-- Embeds Python `float(s)` on an already-stripped string, as an exact
rational: optional sign, integer and/or fractional digit runs, optional
exponent.  Idealizations: the value is exact (no IEEE rounding or
overflow-to-infinity), and the rare literal forms `inf`, `nan` and digit
underscores are treated as unparsable. -/
def pyFloatChars (cs : List Char) : Option ℚ :=
  let signed : ℚ × List Char :=
    match cs with
    | '+' :: t => (1, t)
    | '-' :: t => (-1, t)
    | t => (1, t)
  let sgn := signed.1
  let cs1 := signed.2
  let ip := cs1.takeWhile Char.isDigit
  let cs2 := cs1.dropWhile Char.isDigit
  let fracSplit : List Char × List Char :=
    match cs2 with
    | '.' :: t => (t.takeWhile Char.isDigit, t.dropWhile Char.isDigit)
    | t => ([], t)
  let fp := fracSplit.1
  let cs3 := fracSplit.2
  if ip.isEmpty && fp.isEmpty then none
  else
    let mant : ℚ := sgn * ((natOfDigits ip : ℚ) + (natOfDigits fp : ℚ) / (10 ^ fp.length))
    match cs3 with
    | [] => some mant
    | e :: t =>
      if e = 'e' ∨ e = 'E' then
        let esigned : Bool × List Char :=
          match t with
          | '+' :: t2 => (true, t2)
          | '-' :: t2 => (false, t2)
          | t2 => (true, t2)
        let ed := esigned.2.takeWhile Char.isDigit
        let rest := esigned.2.dropWhile Char.isDigit
        if ed.isEmpty ∨ ¬ rest.isEmpty then none
        else some (if esigned.1 then mant * 10 ^ natOfDigits ed else mant / 10 ^ natOfDigits ed)
      else none

/-- `pyFloatChars` on a `String`. -/
def pyFloat (s : String) : Option ℚ :=
  pyFloatChars s.data

/-- Embeds Python `int(float_value)`: truncation toward zero. -/
def truncQ (q : ℚ) : ℤ :=
  if 0 ≤ q then ⌊q⌋ else -(⌊-q⌋)

/-- Embeds `max(0, min(255, n))` followed by use as a `uint8` component. -/
def clamp255 (n : ℤ) : Fin 256 :=
  ⟨(max 0 (min 255 n)).toNat, by omega⟩

/-! ### ColorParser — `ui_contrast_audit.py`, `parse_css_color_to_rgb` -/

/-- The capture step of the regex `rgba?\(([^)]+)\)` once `rgba(` or
`rgb(` has been matched: one or more non-`)` characters followed by `)`. -/
def captureParen (cs : List Char) : Option (List Char) :=
  let inner := cs.takeWhile (fun ch => ch ≠ ')')
  match inner, cs.dropWhile (fun ch => ch ≠ ')') with
  | [], _ => none
  | _, [] => none
  | inn, _ :: _ => some inn

/-- Embeds `_RGBA_RE.search`: scan left to right for the first position
where `rgba?\(([^)]+)\)` matches and return the capture group.  At a
position starting with `rgba(` the branch without `a` cannot match, so on
capture failure the scan resumes at the next character, exactly as the
regex engine backtracks. -/
def rgbaSearch : List Char → Option (List Char)
  | [] => none
  | c :: rest =>
    if ("rgba(".data).isPrefixOf (c :: rest) then
      match captureParen ((c :: rest).drop 5) with
      | some inner => some inner
      | none => rgbaSearch rest
    else if ("rgb(".data).isPrefixOf (c :: rest) then
      match captureParen ((c :: rest).drop 4) with
      | some inner => some inner
      | none => rgbaSearch rest
    else rgbaSearch rest

/-- Embeds `parse_css_color_to_rgb` (`ui_contrast_audit.py`).  A Python
`None` argument is embedded as `""` (both fail the `if not color` guard).
The `try`/`except` around component conversion is the `Option` plumbing:
every conversion failure yields `none`. -/
def parse_css_color_to_rgb (color : String) : Option RGB :=
  if color.data.isEmpty then none
  else if lowerChars (trimChars color.data) = "transparent".data then none
  else
    match rgbaSearch (lowerChars (trimChars color.data)) with
    | none => none
    | some inner =>
      match (splitOnChar ',' inner).map trimChars with
      | p0 :: p1 :: p2 :: rest =>
        match pyFloatChars p0, pyFloatChars p1, pyFloatChars p2 with
        | some r, some g, some b =>
          (match rest with
           | [] => some ⟨clamp255 (truncQ r), clamp255 (truncQ g), clamp255 (truncQ b)⟩
           | p3 :: _ =>
             match pyFloatChars p3 with
             | none => none
             | some a =>
               if a = 0 then none
               else some ⟨clamp255 (truncQ r), clamp255 (truncQ g), clamp255 (truncQ b)⟩)
        | _, _, _ => none
      | _ => none

/-! ### VisionSimulator — `ui_contrast_audit.py`, `simulate_rgb` -/

/-- Embeds `DEFICIENCY_MAP` membership and lookup. -/
def deficiencyMap (s : String) : Option CvdKind :=
  if s = "protanopia" then some .protan
  else if s = "deuteranopia" then some .deutan
  else if s = "tritanopia" then some .tritan
  else none

/-- Embeds `simulate_rgb`.  `sim` is the external DaltonLens simulator, a
deterministic pure function per the spec; the process-scoped result cache
is semantically transparent and not modelled.  A raised `ValueError` is
`Except.error`. -/
def simulate_rgb (sim : RGB → CvdKind → RGB) (rgb : Option RGB) (deficiency : String) :
    Except String (Option RGB) :=
  match rgb with
  | none => .ok none
  | some c =>
    let d := String.mk (trimChars (lowerChars deficiency.data))
    match deficiencyMap d with
    | none => .error ("Unknown deficiency: " ++ d)
    | some kind => .ok (some (sim c kind))

/-! ### ThresholdPolicy -/

/-- Embeds `threshold_for_font` from `report.py`: parsed pixel size
(unparsable → 0.0), parsed integer weight (unparsable → 400), then
3.0 for `px ≥ 24` or (`weight ≥ 700` and `px ≥ 18.67`), else 4.5. -/
def threshold_for_font (font_size font_weight : String) : ℚ :=
  let px : ℚ := (pyFloatChars (trimChars (stripPxAll font_size.data))).getD 0
  let weight : ℤ :=
    match pyFloat font_weight with
    | some q => truncQ q
    | none => 400
  if px ≥ 24 ∨ (weight ≥ 700 ∧ px ≥ 18.67) then 3.0 else 4.5

/-- Embeds the nested `threshold_for_font` inside `summarize`
(`ui_contrast_audit.py`): parsed pixel size (unparsable → 0.0), then
3.0 for `px ≥ 18`, else 4.5 — no use of the font weight. -/
def summarizeThresholdForFont (font_size : String) : ℚ :=
  let px : ℚ := (pyFloatChars (trimChars (stripPxAll font_size.data))).getD 0
  if px ≥ 18 then 3.0 else 4.5

/-! ### Category classification -/

/-- The `match`/role-fallback body of `classify` from
`ui_contrast_audit.py`, on the already-lowered tag and role. -/
def classifyAuditCore (t r : String) : String :=
  if t = "button" then "button"
  else if t = "a" then "link"
  else if t = "input" ∨ t = "select" ∨ t = "textarea" then "input"
  else if r ∈ ["button", "link", "textbox", "tab", "checkbox", "radio"] then r
  else "interactive_other"

/-- Embeds `classify` from `ui_contrast_audit.py`: lower tag and role
(`(tag or "").lower()`), tag cases `button`, `a`, `input|select|textarea`,
then the role fallback list, else `interactive_other`. -/
def classifyAudit (tag role : String) : String :=
  classifyAuditCore (String.mk (lowerChars tag.data)) (String.mk (lowerChars role.data))

/-- The `match`/role-fallback body of `classify` from `test_example.py`,
on the already-lowered tag and role. -/
def classifyTestCore (t r : String) : String :=
  if t = "button" then "button"
  else if t = "a" then "link"
  else if t = "input" ∨ t = "textarea" ∨ t = "select" then "input"
  else if t = "nav" then "navigation"
  else if t = "label" then "label"
  else if t = "li" then "listitem"
  else if t = "h1" ∨ t = "h2" ∨ t = "h3" ∨ t = "h4" ∨ t = "h5" ∨ t = "h6" then "heading"
  else if t = "p" then "paragraph"
  else if r ∈ ["button", "link", "navigation", "textbox"] then r
  else "other"

/-- Embeds `classify` from `test_example.py`: the larger tag table
(including `nav`, `label`, `li`, headings and `p`), then the role
fallback list `button`, `link`, `navigation`, `textbox`, else `other`. -/
def classifyTest (tag role : String) : String :=
  classifyTestCore (String.mk (lowerChars tag.data)) (String.mk (lowerChars role.data))

/-! ### StyleTokenizer — `ui_contrast_audit.py` grouping

`ElementData` embeds the dict produced by `EXTRACT_JS` for one element
(the fields read by `style_key`, `_init_group` and `_update_group`).
String-valued attributes that can be Python `None` are embedded as `""`
(both falsy); `required`/`ariaInvalid` are used only for truthiness. -/

structure ElementData where
  tag : String
  role : String
  label : String
  textColor : String
  backgroundColor : String
  bgResolvedDepth : ℤ
  fontSize : String
  fontWeight : String
  textDecoration : String
  borderColor : String
  borderWidth : String
  borderStyle : String
  outlineColor : String
  outlineWidth : String
  outlineStyle : String
  required : Bool
  ariaInvalid : Bool
deriving DecidableEq

/-- The merged style-group token built by `_init_group`/`_update_group`. -/
structure StyleGroup where
  layer : String
  state : String
  category : String
  textColor : String
  backgroundColor : String
  bgResolvedDepth : ℤ
  fontSize : String
  fontWeight : String
  textDecoration : String
  borderColor : String
  borderWidth : String
  borderStyle : String
  outlineColor : String
  outlineWidth : String
  outlineStyle : String
  count : ℕ
  sampleLabels : List String
  sampleTags : List String
  sampleRoles : List String
  requiredExamples : ℕ
  ariaInvalidExamples : ℕ
deriving DecidableEq

/-- Embeds `style_key`: the 14-field composite key joined with `|`. -/
def style_key (layer category state : String) (d : ElementData) : String :=
  String.intercalate "|"
    [layer, category, state, d.textColor, d.backgroundColor, d.fontSize, d.fontWeight,
     d.textDecoration, d.borderColor, d.borderWidth, d.borderStyle,
     d.outlineColor, d.outlineWidth, d.outlineStyle]

/-- Embeds `_append_unique`: append only a truthy value that is absent and
only while the list is shorter than `limit`. -/
def appendUnique (items : List String) (value : String) (limit : ℕ) : List String :=
  if value ≠ "" ∧ value ∉ items ∧ items.length < limit then items ++ [value] else items

/-- Embeds `_init_group`: seed a group from its first record. -/
def initGroup (layer state category : String) (d : ElementData) : StyleGroup :=
  { layer := layer
    state := state
    category := category
    textColor := d.textColor
    backgroundColor := d.backgroundColor
    bgResolvedDepth := d.bgResolvedDepth
    fontSize := d.fontSize
    fontWeight := d.fontWeight
    textDecoration := d.textDecoration
    borderColor := d.borderColor
    borderWidth := d.borderWidth
    borderStyle := d.borderStyle
    outlineColor := d.outlineColor
    outlineWidth := d.outlineWidth
    outlineStyle := d.outlineStyle
    count := 1
    sampleLabels := [d.label]
    sampleTags := [d.tag]
    sampleRoles := if d.role ≠ "" then [d.role] else []
    requiredExamples := if d.required then 1 else 0
    ariaInvalidExamples := if d.ariaInvalid then 1 else 0 }

/-- Embeds `_update_group`: merge one further record into a group. -/
def updateGroup (g : StyleGroup) (d : ElementData) : StyleGroup :=
  { g with
    count := g.count + 1
    sampleLabels := appendUnique g.sampleLabels d.label 5
    sampleTags := appendUnique g.sampleTags d.tag 10
    sampleRoles := appendUnique g.sampleRoles d.role 10
    requiredExamples := g.requiredExamples + (if d.required then 1 else 0)
    ariaInvalidExamples := g.ariaInvalidExamples + (if d.ariaInvalid then 1 else 0) }

/-- Merging a stream of same-key records, as `scan_url` does: the first
record seeds the group via `_init_group`, each later one is merged via
`_update_group`. -/
def mergeRecords (layer state category : String) : List ElementData → Option StyleGroup
  | [] => none
  | d :: rest => some (rest.foldl updateGroup (initGroup layer state category d))

/-! ### ContrastEngine — `ui_contrast_audit.py` luminance and ratio

These definitions are over `ℝ` because the gamma step raises to the real
power 2.4; they are the ideal-real semantics of the float code.  Python
`round(x, 2)` rounds half to even; the model uses Mathlib `round`
(half away from zero), which differs only at exact two-decimal midpoints
— none of the verified properties depends on the tie rule. -/

/-- Embeds `_srgb_channel_to_linear`. -/
noncomputable def srgb_channel_to_linear (v255 : ℝ) : ℝ :=
  if v255 / 255 ≤ 0.04045 then (v255 / 255) / 12.92
  else ((v255 / 255 + 0.055) / 1.055) ^ (2.4 : ℝ)

/-- Embeds `relative_luminance`. -/
noncomputable def relative_luminance (c : RGB) : ℝ :=
  0.2126 * srgb_channel_to_linear (c.r : ℕ) + 0.7152 * srgb_channel_to_linear (c.g : ℕ) +
    0.0722 * srgb_channel_to_linear (c.b : ℕ)

/-- Rounding to two decimal places, as `round(x, 2)`. -/
noncomputable def round2R (x : ℝ) : ℝ :=
  (round (100 * x) : ℤ) / 100

/-- Embeds `contrast_ratio` (`ui_contrast_audit.py`): `none` if either
input is `none`, else the WCAG ratio of the lighter to the darker
luminance, rounded to two decimals. -/
noncomputable def contrastRatioR (rgb1 rgb2 : Option RGB) : Option ℝ :=
  match rgb1, rgb2 with
  | some c1, some c2 =>
    let L1 := relative_luminance c1
    let L2 := relative_luminance c2
    some (round2R ((max L1 L2 + 0.05) / (min L1 L2 + 0.05)))
  | _, _ => none

/-- Embeds `contrast_for_all_vision`: the normal ratio plus one ratio per
CVD type, simulating each non-`None` color.  `simulate_rgb` is called only
with the three valid deficiency names, so its `Except` is always `ok`;
`toOption`/`getD` extracts it. -/
noncomputable def contrast_for_all_vision (sim : RGB → CvdKind → RGB) (fg_rgb bg_rgb : Option RGB) :
    VisionMap ℝ :=
  let simOf := fun (c : Option RGB) (d : String) =>
    if c.isSome then ((simulate_rgb sim c d).toOption).getD none else none
  { normal := contrastRatioR fg_rgb bg_rgb
    protanopia := contrastRatioR (simOf fg_rgb "protanopia") (simOf bg_rgb "protanopia")
    deuteranopia := contrastRatioR (simOf fg_rgb "deuteranopia") (simOf bg_rgb "deuteranopia")
    tritanopia := contrastRatioR (simOf fg_rgb "tritanopia") (simOf bg_rgb "tritanopia") }

/-- Embeds `compute_group_contrasts`: parse the three foreground colors
and the background; each channel is computed only when both of its colors
parsed (a parsed triple is always truthy in Python), else `None`. -/
noncomputable def compute_group_contrasts (sim : RGB → CvdKind → RGB) (g : StyleGroup) :
    Contrast ℝ :=
  let text_rgb := parse_css_color_to_rgb g.textColor
  let bg_rgb := parse_css_color_to_rgb g.backgroundColor
  let border_rgb := parse_css_color_to_rgb g.borderColor
  let outline_rgb := parse_css_color_to_rgb g.outlineColor
  { text_on_bg :=
      if text_rgb.isSome ∧ bg_rgb.isSome then some (contrast_for_all_vision sim text_rgb bg_rgb)
      else none
    border_on_bg :=
      if border_rgb.isSome ∧ bg_rgb.isSome then some (contrast_for_all_vision sim border_rgb bg_rgb)
      else none
    outline_on_bg :=
      if outline_rgb.isSome ∧ bg_rgb.isSome then some (contrast_for_all_vision sim outline_rgb bg_rgb)
      else none }

/-! ### Summarize helpers — `ui_contrast_audit.py`

The contrast values consumed below come from a JSON document whose ratios
are two-decimal numbers, embedded as `ℚ`. -/

/-- Embeds the nested `normal_pass_but_cvd_fail` inside `summarize`:
false when the channel is absent, false when the normal ratio is null or
below the threshold, else true exactly when some CVD ratio is non-null
and below the threshold. -/
def normal_pass_but_cvd_fail (contrasts : Option (VisionMap ℚ)) (thr : ℚ) : Bool :=
  match contrasts with
  | none => false
  | some m =>
    match m.normal with
    | none => false
    | some n =>
      if n < thr then false
      else
        [m.protanopia, m.deuteranopia, m.tritanopia].any fun v =>
          match v with
          | some x => decide (x < thr)
          | none => false

/-! ### VulnerabilityClassifier — `report.py` -/

/-- `CVD_TYPES` from `report.py`. -/
def CVD_TYPES : List String := ["normal", "protanopia", "deuteranopia", "tritanopia"]

/-- Dictionary access `contrast_dict.get(k)` on a vision map. -/
def visionGet (m : VisionMap ℚ) (k : String) : Option ℚ :=
  if k = "normal" then m.normal
  else if k = "protanopia" then m.protanopia
  else if k = "deuteranopia" then m.deuteranopia
  else if k = "tritanopia" then m.tritanopia
  else none

/-- One iteration of the `worst_case` loop: a non-null value replaces the
running best only when strictly smaller (so ties keep the earliest type). -/
def wcStep (acc : Option ℚ × Option String) (p : String × Option ℚ) :
    Option ℚ × Option String :=
  match p.2 with
  | none => acc
  | some v =>
    match acc.1 with
    | none => (some v, some p.1)
    | some b => if v < b then (some v, some p.1) else acc

/-- The `worst_case` loop over the vision types in `CVD_TYPES` order. -/
def wcLoop (acc : Option ℚ × Option String) : List (String × Option ℚ) →
    Option ℚ × Option String
  | [] => acc
  | p :: rest => wcLoop (wcStep acc p) rest

/-- The typed entry list scanned by `worst_case`. -/
def typedEntries (m : VisionMap ℚ) : List (String × Option ℚ) :=
  CVD_TYPES.map fun k => (k, visionGet m k)

/-- Embeds `worst_case` (`report.py`): `(None, None)` for an absent
mapping, else the minimum non-null ratio paired with the vision type that
produced it. -/
def worst_case (contrast_dict : Option (VisionMap ℚ)) : Option ℚ × Option String :=
  match contrast_dict with
  | none => (none, none)
  | some m => wcLoop (none, none) (typedEntries m)

/-- A style group as read by `report.py` from the scan JSON: the fields
`classify_failure`, `_collect_cvd_failures` and `compute_cvi` access. -/
structure ReportGroup where
  fontSize : String
  fontWeight : String
  contrast : Contrast ℚ
deriving DecidableEq

/-- One failure reason appended by `classify_failure`.  The source emits a
formatted string `f"{channel}<{thr} (worst {w} @ {k})"`; the embedding
keeps the embedded data as fields. -/
structure Reason where
  channel : String
  threshold : ℚ
  worst : ℚ
  vtype : Option String
deriving DecidableEq

/-- The dict returned by `classify_failure`. -/
structure Verdict where
  font_threshold : ℚ
  text_worst : Option ℚ
  text_worst_type : Option String
  border_worst : Option ℚ
  border_worst_type : Option String
  outline_worst : Option ℚ
  outline_worst_type : Option String
  reasons : List Reason
  is_vulnerable : Bool
deriving DecidableEq

/-- Embeds `classify_failure` (`report.py`): per-channel worst cases, then
reasons appended in the fixed order text → border → outline, each guarded
by `worst is not None and worst < threshold`. -/
def classify_failure (g : ReportGroup) : Verdict :=
  let font_thr := threshold_for_font g.fontSize g.fontWeight
  let textWc := worst_case g.contrast.text_on_bg
  let borderWc := worst_case g.contrast.border_on_bg
  let outlineWc := worst_case g.contrast.outline_on_bg
  let reasons : List Reason :=
    (match textWc.1 with
     | some w => if w < font_thr then [⟨"text", font_thr, w, textWc.2⟩] else []
     | none => []) ++
    (match borderWc.1 with
     | some w => if w < 3.0 then [⟨"border", 3.0, w, borderWc.2⟩] else []
     | none => []) ++
    (match outlineWc.1 with
     | some w => if w < 3.0 then [⟨"outline", 3.0, w, outlineWc.2⟩] else []
     | none => [])
  { font_threshold := font_thr
    text_worst := textWc.1
    text_worst_type := textWc.2
    border_worst := borderWc.1
    border_worst_type := borderWc.2
    outline_worst := outlineWc.1
    outline_worst_type := outlineWc.2
    reasons := reasons
    is_vulnerable := decide (reasons.length > 0) }

/-- Dictionary access `(example.get("contrast") or {}).get(channel)`. -/
def contrastGet (ct : Contrast ℚ) (channel : String) : Option (VisionMap ℚ) :=
  if channel = "text_on_bg" then ct.text_on_bg
  else if channel = "border_on_bg" then ct.border_on_bg
  else if channel = "outline_on_bg" then ct.outline_on_bg
  else none

/-- Embeds `cvd_only_flag` (`report.py`). -/
def cvd_only_flag (g : ReportGroup) (channel : String) (threshold : ℚ) : Bool :=
  match contrastGet g.contrast channel with
  | none => false
  | some c =>
    match c.normal with
    | none => false
    | some n =>
      if n < threshold then false
      else
        [c.protanopia, c.deuteranopia, c.tritanopia].any fun v =>
          match v with
          | some x => decide (x < threshold)
          | none => false

/-! ### SiteAggregator — `report.py`, `_collect_cvd_failures` and `compute_cvi` -/

/-- Python `round` ties to even; the nearest integer with half-to-even
tie-breaking, for an exact rational. -/
def roundHalfEven (q : ℚ) : ℤ :=
  if q - ⌊q⌋ < 1 / 2 then ⌊q⌋
  else if 1 / 2 < q - ⌊q⌋ then ⌊q⌋ + 1
  else if ⌊q⌋ % 2 = 0 then ⌊q⌋ else ⌊q⌋ + 1

/-- `round(x, 2)` on an exact rational. -/
def round2Q (q : ℚ) : ℚ :=
  (roundHalfEven (100 * q) : ℚ) / 100

/-- `round(x, 3)` on an exact rational. -/
def round3Q (q : ℚ) : ℚ :=
  (roundHalfEven (1000 * q) : ℚ) / 1000

/-- One entry of the list built by `_collect_cvd_failures`.  The
`failing_cvd`/`all_cvd` dicts are embedded as association lists in the
fixed iteration order protanopia, deuteranopia, tritanopia. -/
structure CvdFailure where
  channel : String
  normal : ℚ
  threshold : ℚ
  failing_cvd : List (String × ℚ)
  all_cvd : List (String × ℚ)
deriving DecidableEq

/-- One entry of the `failing` comprehension of `_collect_cvd_failures`:
the rounded ratio of one CVD type when it is non-null and below the
threshold. -/
def cvdPick (name : String) (v : Option ℚ) (thr : ℚ) : List (String × ℚ) :=
  match v with
  | some x => if x < thr then [(name, round2Q x)] else []
  | none => []

/-- One entry of the `all_cvd` comprehension of `_collect_cvd_failures`:
the rounded ratio of one CVD type when it is non-null. -/
def cvdAll (name : String) (v : Option ℚ) : List (String × ℚ) :=
  match v with
  | some x => [(name, round2Q x)]
  | none => []

/-- The per-channel body of the `_collect_cvd_failures` loop: skip an
absent channel, skip when the normal ratio is null or below the
threshold, else record the CVD ratios below the threshold (if any).  The
`failing`/`all_cvd` dict comprehensions over the fixed tuple
(protanopia, deuteranopia, tritanopia) are written out entrywise. -/
def channelCvdFailure (channel : String) (c : Option (VisionMap ℚ)) (thr : ℚ) :
    List CvdFailure :=
  match c with
  | none => []
  | some m =>
    match m.normal with
    | none => []
    | some normal =>
      if normal < thr then []
      else if (cvdPick "protanopia" m.protanopia thr ++ cvdPick "deuteranopia" m.deuteranopia thr ++
          cvdPick "tritanopia" m.tritanopia thr).isEmpty then []
      else
        [{ channel := channel
           normal := round2Q normal
           threshold := thr
           failing_cvd := cvdPick "protanopia" m.protanopia thr ++
             cvdPick "deuteranopia" m.deuteranopia thr ++ cvdPick "tritanopia" m.tritanopia thr
           all_cvd := cvdAll "protanopia" m.protanopia ++ cvdAll "deuteranopia" m.deuteranopia ++
             cvdAll "tritanopia" m.tritanopia }]

/-- Embeds `_collect_cvd_failures` (`report.py`): the text channel against
the font threshold, border and outline against 3.0, in that order. -/
def collect_cvd_failures (contrast : Contrast ℚ) (font_thr : ℚ) : List CvdFailure :=
  channelCvdFailure "text" contrast.text_on_bg font_thr ++
    channelCvdFailure "border" contrast.border_on_bg 3.0 ++
    channelCvdFailure "outline" contrast.outline_on_bg 3.0

/-- One site's entry in the scan JSON: either an `error` string or a
result with the group list (`site_blob.get("result", {}).get("groups",
[])` yields `[]` when the result or group list is missing). -/
structure SiteBlob where
  error : Option String
  groups : List ReportGroup
deriving DecidableEq

/-- One row of the CVI table returned by `compute_cvi`. -/
structure CviRow where
  site : String
  cvi : ℚ
  category : String
  total_vulnerable : ℕ
  total_styles : ℕ
deriving DecidableEq

/-- The ordered breakpoint chain of `compute_cvi`, first match wins. -/
def riskCategory (cvi : ℚ) : String :=
  if cvi = 0 then "Fully Accessible"
  else if cvi ≤ 0.05 then "Minor Risk"
  else if cvi ≤ 0.15 then "Moderate Risk"
  else if cvi ≤ 0.30 then "High Risk"
  else "Critical Risk"

/-- Whether one group is counted into `cvd_only_ids` by the `compute_cvi`
loop: its `_collect_cvd_failures` list is non-empty. -/
def groupIsCvdOnly (g : ReportGroup) : Bool :=
  !(collect_cvd_failures g.contrast (threshold_for_font g.fontSize g.fontWeight)).isEmpty

/-- Embeds `compute_cvi` (`report.py`).  Python dicts iterate in insertion
order, so `data["sites"]` is a list of name/blob pairs.  Sites with an
`error` entry are skipped, as are sites with zero groups; otherwise the
row holds `round(vulnerable/total, 3)` and its risk category.  The
source's `cvd_only_ids` index set has cardinality `countP` of the group
list since indices are distinct. -/
def compute_cvi : List (String × SiteBlob) → List CviRow
  | [] => []
  | (name, blob) :: rest =>
    match blob.error with
    | some _ => compute_cvi rest
    | none =>
      let groups := blob.groups
      if groups.length = 0 then compute_cvi rest
      else
        let vuln := groups.countP groupIsCvdOnly
        let cvi := round3Q ((vuln : ℚ) / (groups.length : ℚ))
        { site := name
          cvi := cvi
          category := riskCategory cvi
          total_vulnerable := vuln
          total_styles := groups.length } :: compute_cvi rest

/-! ### Specification-side definitions

Definitions in this block are written from the specification's (or the
amended claims') words, to be compared with the source-side definitions
above. -/

/-- The ThresholdPolicy rule as the spec states it: 3.0 if size ≥ 24px or
(weight ≥ 700 and size ≥ 18.67px), else 4.5, over already-parsed metrics. -/
def thresholdRuleSpec (px : ℚ) (weight : ℤ) : ℚ :=
  if 24 ≤ px ∨ (700 ≤ weight ∧ 1867 / 100 ≤ px) then 3.0 else 4.5

/-- The parsed pixel size the claim speaks of: strip the unit, parse,
unparsable treated as 0px. -/
def claimPx (font_size : String) : ℚ :=
  (pyFloatChars (trimChars (stripPxAll font_size.data))).getD 0

/-- The parsed font weight: truncated numeric weight, unparsable → 400. -/
def claimWeight (font_weight : String) : ℤ :=
  match pyFloat font_weight with
  | some q => truncQ q
  | none => 400

/-- The claim's CVD-only-vulnerability condition for one channel mapping:
the channel is present, its normal ratio is non-null and at least the
threshold, and some CVD ratio is non-null and below the threshold. -/
def cvdOnlySpec (c : Option (VisionMap ℚ)) (thr : ℚ) : Prop :=
  ∃ m, c = some m ∧ (∃ n, m.normal = some n ∧ thr ≤ n) ∧
    ((∃ v, m.protanopia = some v ∧ v < thr) ∨ (∃ v, m.deuteranopia = some v ∧ v < thr) ∨
      (∃ v, m.tritanopia = some v ∧ v < thr))

/-- The amended claim's row for one site of the input document: a row
exactly when the site has no error entry and at least one group, holding
the rounded CVD-only ratio and its first-match risk category. -/
def cviRowSpec (p : String × SiteBlob) : Option CviRow :=
  if p.2.error = none ∧ p.2.groups ≠ [] then
    let total := p.2.groups.length
    let vuln := p.2.groups.countP groupIsCvdOnly
    let cvi := round3Q ((vuln : ℚ) / (total : ℚ))
    some { site := p.1, cvi := cvi, category := riskCategory cvi,
           total_vulnerable := vuln, total_styles := total }
  else none

/-- First-match association lookup, used to state the claims' closed tag
tables. -/
def lookupStr (k : String) : List (String × String) → Option String
  | [] => none
  | p :: rest => if k = p.1 then some p.2 else lookupStr k rest

/-- The amended claim's tag table for `classify` in `ui_contrast_audit.py`. -/
def auditTagTable : List (String × String) :=
  [("button", "button"), ("a", "link"), ("input", "input"), ("select", "input"),
   ("textarea", "input")]

/-- The amended claim's role fallback set for `classify` in
`ui_contrast_audit.py`. -/
def auditRoleSet : List String :=
  ["button", "link", "textbox", "tab", "checkbox", "radio"]

/-- The amended claim's mapping for `classify` in `ui_contrast_audit.py`:
tag table first, then the role fallback, else `interactive_other`. -/
def classifyAuditSpec (tag role : String) : String :=
  (lookupStr (String.mk (lowerChars tag.data)) auditTagTable).getD
    (if String.mk (lowerChars role.data) ∈ auditRoleSet then String.mk (lowerChars role.data)
     else "interactive_other")

/-- The amended claim's tag table for `classify` in `test_example.py`. -/
def testTagTable : List (String × String) :=
  [("button", "button"), ("a", "link"), ("input", "input"), ("textarea", "input"),
   ("select", "input"), ("nav", "navigation"), ("label", "label"), ("li", "listitem"),
   ("h1", "heading"), ("h2", "heading"), ("h3", "heading"), ("h4", "heading"),
   ("h5", "heading"), ("h6", "heading"), ("p", "paragraph")]

/-- The amended claim's role fallback set for `classify` in
`test_example.py`. -/
def testRoleSet : List String :=
  ["button", "link", "navigation", "textbox"]

/-- The amended claim's mapping for `classify` in `test_example.py`. -/
def classifyTestSpec (tag role : String) : String :=
  (lookupStr (String.mk (lowerChars tag.data)) testTagTable).getD
    (if String.mk (lowerChars role.data) ∈ testRoleSet then String.mk (lowerChars role.data)
     else "other")

/-- The claim's per-channel reason construction for `classify_failure`: a
single reason embedding threshold, worst ratio and responsible vision
type exactly when the worst case exists and is below the threshold. -/
def reasonListSpec (channel : String) (thr : ℚ) (wc : Option ℚ × Option String) :
    List Reason :=
  match wc.1 with
  | some w => if w < thr then [⟨channel, thr, w, wc.2⟩] else []
  | none => []

/-- The comma-separated, stripped components of the first `rgb(...)` /
`rgba(...)` match inside the lowered, stripped color string, if any. -/
def firstRgbParts (color : String) : Option (List (List Char)) :=
  (rgbaSearch (lowerChars (trimChars color.data))).map fun inner =>
    (splitOnChar ',' inner).map trimChars

/-- The amended claim's success condition for `parse_css_color_to_rgb`:
non-empty input that is not literally `transparent`, a first regex match
with at least three components whose first three are numeric, and either
no fourth component or a numeric, non-zero fourth (alpha). -/
def parseSuccSpec (color : String) : Prop :=
  color.data ≠ [] ∧ lowerChars (trimChars color.data) ≠ "transparent".data ∧
    ∃ p0 p1 p2 rest, firstRgbParts color = some (p0 :: p1 :: p2 :: rest) ∧
      (pyFloatChars p0).isSome ∧ (pyFloatChars p1).isSome ∧ (pyFloatChars p2).isSome ∧
      (∀ p3 t, rest = p3 :: t → ∃ a, pyFloatChars p3 = some a ∧ a ≠ 0)

/-! ### Concrete instances used by counterexamples and witnesses -/

/-- A scanned element record (a button labeled `a`). -/
def c2RecordA : ElementData :=
  { tag := "BUTTON", role := "", label := "a", textColor := "rgb(0, 0, 0)",
    backgroundColor := "rgb(255, 255, 255)", bgResolvedDepth := 0, fontSize := "16px",
    fontWeight := "400", textDecoration := "none", borderColor := "rgb(0, 0, 0)",
    borderWidth := "1px", borderStyle := "solid", outlineColor := "rgb(0, 0, 0)",
    outlineWidth := "0px", outlineStyle := "none", required := false, ariaInvalid := false }

/-- The same style as `c2RecordA` but labeled `b`: identical on all 14
style-key fields. -/
def c2RecordB : ElementData :=
  { c2RecordA with label := "b" }

/-- A channel mapping that passes for normal vision at threshold 4.5 but
fails under protanopia. -/
def cvdOnlyMap : VisionMap ℚ :=
  { normal := some 5, protanopia := some 2, deuteranopia := some 5, tritanopia := some 5 }

/-- A report-side group whose text channel is CVD-only vulnerable at the
4.5 threshold. -/
def vulnGroup : ReportGroup :=
  { fontSize := "16px", fontWeight := "400",
    contrast := { text_on_bg := some cvdOnlyMap, border_on_bg := none, outline_on_bg := none } }

/-- A report-side group with no measurable channel. -/
def plainGroup : ReportGroup :=
  { fontSize := "16px", fontWeight := "400",
    contrast := { text_on_bg := none, border_on_bg := none, outline_on_bg := none } }

/-- A vision map with a tie for the minimum between normal and
protanopia, and a null tritanopia entry. -/
def c6TieMap : VisionMap ℚ :=
  { normal := some 2, protanopia := some 2, deuteranopia := some 5, tritanopia := none }

/-- A one-site document with three groups of which exactly one is
CVD-only vulnerable. -/
def c4Sites : List (String × SiteBlob) :=
  [("example.com", { error := none, groups := [vulnGroup, plainGroup, plainGroup] })]

/-! ## Theorems -/

/-- The linearized channel value is nonnegative for a nonnegative input. -/
theorem srgb_channel_to_linear_nonneg (v : ℝ) (hv : 0 ≤ v) : 0 ≤ srgb_channel_to_linear v := by
  unfold srgb_channel_to_linear
  split_ifs with h
  · positivity
  · positivity

/-- Relative luminance is nonnegative. -/
theorem relative_luminance_nonneg (c : RGB) : 0 ≤ relative_luminance c := by
  unfold relative_luminance
  have h1 := srgb_channel_to_linear_nonneg (c.r : ℕ) (by positivity)
  have h2 := srgb_channel_to_linear_nonneg (c.g : ℕ) (by positivity)
  have h3 := srgb_channel_to_linear_nonneg (c.b : ℕ) (by positivity)
  nlinarith

/-- Claim C7: `contrast_ratio` is symmetric, null-propagating, and equal
to 1.0 on any pair of identical non-null RGB triples. -/
theorem C7_contrast_ratio_props :
    (∀ a b : Option RGB, contrastRatioR a b = contrastRatioR b a) ∧
    (∀ b : Option RGB, contrastRatioR none b = none) ∧
    (∀ a : Option RGB, contrastRatioR a none = none) ∧
    (∀ c : RGB, contrastRatioR (some c) (some c) = some 1) := by
  refine ⟨?_, ?_, ?_, ?_⟩
  · intro a b
    cases a <;> cases b <;> simp [contrastRatioR]
    rw [max_comm, min_comm]
  · intro b; cases b <;> rfl
  · intro a; cases a <;> rfl
  · intro c
    have hL := relative_luminance_nonneg c
    simp only [contrastRatioR, max_self, min_self]
    have hne : relative_luminance c + 0.05 ≠ 0 := by positivity
    rw [div_self hne]
    unfold round2R
    norm_num

/-- Claim C1 is false as stated: the two threshold computations disagree.
At font size `18px` and weight `400` the claim's rule (and `report.py`'s
`threshold_for_font`) yields 4.5, while the threshold function used by
`summarize` in `ui_contrast_audit.py` yields 3.0. -/
theorem C1_threshold_counterexample :
    threshold_for_font "18px" "400" = 4.5 ∧
    summarizeThresholdForFont "18px" = 3.0 ∧ (4.5 : ℚ) ≠ 3.0 := by
  refine ⟨by with_unfolding_all rfl, by with_unfolding_all rfl, by norm_num⟩

/-- Claim C1 (amended): `threshold_for_font` in `report.py` implements the
stated rule — 3.0 iff (size ≥ 24px) or (weight ≥ 700 and size ≥ 18.67px),
unparsable size treated as 0px (and unparsable weight as 400) — while the
threshold function used by `summarize` in `ui_contrast_audit.py` instead
returns 3.0 iff the parsed size (unparsable → 0px) is at least 18px,
ignoring the font weight. -/
theorem C1_threshold_amended (font_size font_weight : String) :
    threshold_for_font font_size font_weight =
      thresholdRuleSpec (claimPx font_size) (claimWeight font_weight) ∧
    summarizeThresholdForFont font_size = (if 18 ≤ claimPx font_size then 3.0 else 4.5) := by
  constructor
  · unfold threshold_for_font thresholdRuleSpec claimPx claimWeight
    have h67 : (18.67 : ℚ) = 1867 / 100 := by norm_num
    simp only [ge_iff_le, h67]
  · unfold summarizeThresholdForFont claimPx
    simp only [ge_iff_le]

/-- Claim C5 is false as stated: neither `classify` implements the full
mapping.  In `ui_contrast_audit.py`, tag `nav` yields `interactive_other`
(not `navigation`) and role `navigation` is not in the fallback list; in
`test_example.py`, role `tab` yields `other` (not `tab`). -/
theorem C5_classify_counterexample :
    classifyAudit "nav" "" = "interactive_other" ∧
    classifyAudit "div" "navigation" = "interactive_other" ∧
    classifyTest "div" "tab" = "other" ∧
    "interactive_other" ≠ "navigation" ∧ "other" ≠ "tab" := by
  refine ⟨by with_unfolding_all rfl, by with_unfolding_all rfl, by with_unfolding_all rfl,
    by decide, by decide⟩

/-- `lookupStr` misses every table whose keys all differ from the key. -/
theorem lookupStr_eq_none (k : String) : ∀ table : List (String × String),
    (∀ p ∈ table, k ≠ p.1) → lookupStr k table = none
  | [], _ => rfl
  | p :: rest, h => by
    have hk : k ≠ p.1 := h p (List.mem_cons_self p rest)
    simp only [lookupStr, if_neg hk]
    exact lookupStr_eq_none k rest fun q hq => h q (List.mem_cons_of_mem p hq)

/-- Claim C5 (amended): each `classify` implements its own closed mapping.
`ui_contrast_audit.py`: tags button/a/input/select/textarea, roles
button/link/textbox/tab/checkbox/radio, else `interactive_other` (no
nav/label/li/heading/p tags, no navigation role).  `test_example.py`: the
full tag table including nav/label/li/h1–h6/p, roles
button/link/navigation/textbox, else `other` (no tab/checkbox/radio
roles). -/
theorem C5_classify_amended (tag role : String) :
    classifyAudit tag role = classifyAuditSpec tag role ∧
    classifyTest tag role = classifyTestSpec tag role := by
  have ha : ∀ t r : String, classifyAuditCore t r =
      (lookupStr t auditTagTable).getD (if r ∈ auditRoleSet then r else "interactive_other") := by
    intro t r
    by_cases h0 : t = "button"
    · subst h0; rfl
    by_cases h1 : t = "a"
    · subst h1; rfl
    by_cases h2 : t = "input"
    · subst h2; rfl
    by_cases h3 : t = "select"
    · subst h3; rfl
    by_cases h4 : t = "textarea"
    · subst h4; rfl
    have hnone : lookupStr t auditTagTable = none := by
      refine lookupStr_eq_none t _ ?_
      intro p hp
      simp only [auditTagTable, List.mem_cons, List.not_mem_nil, or_false] at hp
      rcases hp with rfl|rfl|rfl|rfl|rfl <;> assumption
    rw [hnone]
    unfold classifyAuditCore
    rw [if_neg h0, if_neg h1, if_neg (by simp [h2, h3, h4] : ¬(t = "input" ∨ t = "select" ∨ t = "textarea"))]
    rfl
  have ht : ∀ t r : String, classifyTestCore t r =
      (lookupStr t testTagTable).getD (if r ∈ testRoleSet then r else "other") := by
    intro t r
    by_cases g0 : t = "button"
    · subst g0; rfl
    by_cases g1 : t = "a"
    · subst g1; rfl
    by_cases g2 : t = "input"
    · subst g2; rfl
    by_cases g3 : t = "textarea"
    · subst g3; rfl
    by_cases g4 : t = "select"
    · subst g4; rfl
    by_cases g5 : t = "nav"
    · subst g5; rfl
    by_cases g6 : t = "label"
    · subst g6; rfl
    by_cases g7 : t = "li"
    · subst g7; rfl
    by_cases g8 : t = "h1"
    · subst g8; rfl
    by_cases g9 : t = "h2"
    · subst g9; rfl
    by_cases g10 : t = "h3"
    · subst g10; rfl
    by_cases g11 : t = "h4"
    · subst g11; rfl
    by_cases g12 : t = "h5"
    · subst g12; rfl
    by_cases g13 : t = "h6"
    · subst g13; rfl
    by_cases g14 : t = "p"
    · subst g14; rfl
    have hnone : lookupStr t testTagTable = none := by
      refine lookupStr_eq_none t _ ?_
      intro p hp
      simp only [testTagTable, List.mem_cons, List.not_mem_nil, or_false] at hp
      rcases hp with rfl|rfl|rfl|rfl|rfl|rfl|rfl|rfl|rfl|rfl|rfl|rfl|rfl|rfl|rfl <;> assumption
    rw [hnone]
    unfold classifyTestCore
    rw [if_neg g0, if_neg g1,
      if_neg (by simp [g2, g3, g4] : ¬(t = "input" ∨ t = "textarea" ∨ t = "select")),
      if_neg g5, if_neg g6, if_neg g7,
      if_neg (by simp [g8, g9, g10, g11, g12, g13] :
        ¬(t = "h1" ∨ t = "h2" ∨ t = "h3" ∨ t = "h4" ∨ t = "h5" ∨ t = "h6")),
      if_neg g14]
    rfl
  exact ⟨ha _ _, ht _ _⟩

/-- Claim C8: for every RGB triple and every deficiency string whose
lowered, stripped form is not one of protanopia/deuteranopia/tritanopia,
`simulate_rgb` raises `ValueError` (embedded as `Except.error`) instead
of returning a value. -/
theorem C8_unknown_deficiency (sim : RGB → CvdKind → RGB) (c : RGB) (d : String)
    (h : String.mk (trimChars (lowerChars d.data)) ∉
      ["protanopia", "deuteranopia", "tritanopia"]) :
    simulate_rgb sim (some c) d =
      .error ("Unknown deficiency: " ++ String.mk (trimChars (lowerChars d.data))) := by
  simp only [List.mem_cons, List.not_mem_nil, or_false, not_or] at h
  obtain ⟨h1, h2, h3⟩ := h
  unfold simulate_rgb deficiencyMap
  simp only [if_neg h1, if_neg h2, if_neg h3]

/-- Witness for C8 at the concrete deficiency string `"Bogus "`. -/
theorem C8_unknown_deficiency_witness :
    (String.mk (trimChars (lowerChars "Bogus ".data)) ∉
      ["protanopia", "deuteranopia", "tritanopia"]) ∧
    simulate_rgb (fun c _ => c) (some ⟨0, 0, 0⟩) "Bogus " =
      .error ("Unknown deficiency: " ++ String.mk (trimChars (lowerChars "Bogus ".data))) :=
  ⟨by decide, C8_unknown_deficiency (fun c _ => c) ⟨0, 0, 0⟩ "Bogus " (by decide)⟩

/-- The summarize-side flag decides exactly the claim's CVD-only
condition. -/
theorem normal_pass_iff_spec (c : Option (VisionMap ℚ)) (thr : ℚ) :
    normal_pass_but_cvd_fail c thr = true ↔ cvdOnlySpec c thr := by
  unfold normal_pass_but_cvd_fail cvdOnlySpec
  rcases c with _ | ⟨n, p, d, t⟩
  · simp
  · rcases n with _ | nv
    · simp
    · dsimp only
      split_ifs with hn
      · simp only [Bool.false_eq_true, false_iff]
        rintro ⟨m, hm, ⟨x, hx, hle⟩, -⟩
        injection hm with hm
        subst hm
        simp only [Option.some.injEq] at hx
        subst hx
        exact absurd hle (not_le.mpr hn)
      · rcases p with _ | pv <;> rcases d with _ | dv <;> rcases t with _ | tv <;>
          simp_all [not_lt, List.any_cons]

/-- One channel of `_collect_cvd_failures` contributes an entry exactly
under the claim's CVD-only condition, and every entry carries its channel
name. -/
theorem channelCvdFailure_spec (name : String) (c : Option (VisionMap ℚ)) (thr : ℚ) :
    (channelCvdFailure name c thr ≠ [] ↔ cvdOnlySpec c thr) ∧
    ∀ f ∈ channelCvdFailure name c thr, f.channel = name := by
  unfold channelCvdFailure cvdOnlySpec
  rcases c with _ | ⟨n, p, d, t⟩
  · simp
  · rcases n with _ | nv
    · simp
    · dsimp only
      constructor
      · split_ifs with hn hempty
        · simp only [ne_eq, not_true_eq_false, false_iff]
          rintro ⟨m, hm, ⟨x, hx, hle⟩, -⟩
          injection hm with hm
          subst hm
          simp only [Option.some.injEq] at hx
          subst hx
          exact absurd hle (not_le.mpr hn)
        · simp only [ne_eq, not_true_eq_false, false_iff]
          rintro ⟨m, hm, -, hcvd⟩
          injection hm with hm
          subst hm
          rcases p with _ | pv <;> rcases d with _ | dv <;> rcases t with _ | tv <;>
            simp only [cvdPick] at hempty <;> (try split_ifs at hempty) <;> simp_all
        · simp only [ne_eq, List.cons_ne_self, not_false_eq_true, true_iff]
          refine ⟨⟨some nv, p, d, t⟩, rfl, ⟨nv, rfl, not_lt.mp hn⟩, ?_⟩
          rcases p with _ | pv <;> rcases d with _ | dv <;> rcases t with _ | tv <;>
            simp only [cvdPick] at hempty ⊢ <;> (try split_ifs at hempty) <;> simp_all
      · split_ifs <;> simp

/-- `channelCvdFailure` yields nothing or a single entry tagged with its
channel name. -/
theorem channelCvdFailure_cases (name : String) (c : Option (VisionMap ℚ)) (thr : ℚ) :
    channelCvdFailure name c thr = [] ∨
    ∃ e, channelCvdFailure name c thr = [e] ∧ e.channel = name := by
  unfold channelCvdFailure
  rcases c with _ | ⟨n, p, d, t⟩
  · exact Or.inl rfl
  · rcases n with _ | nv
    · exact Or.inl rfl
    · dsimp only
      split_ifs
      · exact Or.inl rfl
      · exact Or.inl rfl
      · exact Or.inr ⟨_, rfl, rfl⟩

/-- The query-named entry appears in `_collect_cvd_failures` output iff
the query's own channel contributed, since every entry carries its
channel name and the three names are distinct. -/
theorem collect_any_text (ct : Contrast ℚ) (fthr : ℚ) :
    (((collect_cvd_failures ct fthr).any fun f => f.channel = "text") = true ↔
      channelCvdFailure "text" ct.text_on_bg fthr ≠ []) := by
  constructor
  · intro h
    simp only [List.any_eq_true, decide_eq_true_eq] at h
    obtain ⟨f, hf, hch⟩ := h
    unfold collect_cvd_failures at hf
    rcases List.mem_append.mp hf with hf2 | hf3
    · rcases List.mem_append.mp hf2 with hft | hfb
      · exact List.ne_nil_of_mem hft
      · have hn := (channelCvdFailure_spec "border" ct.border_on_bg 3.0).2 f hfb
        rw [hn] at hch
        exact absurd hch (by decide)
    · have hn := (channelCvdFailure_spec "outline" ct.outline_on_bg 3.0).2 f hf3
      rw [hn] at hch
      exact absurd hch (by decide)
  · intro h
    obtain ⟨f, hf⟩ := List.exists_mem_of_ne_nil _ h
    simp only [List.any_eq_true, decide_eq_true_eq]
    refine ⟨f, ?_, (channelCvdFailure_spec "text" ct.text_on_bg fthr).2 f hf⟩
    unfold collect_cvd_failures
    exact List.mem_append_left _ (List.mem_append_left _ hf)

/-- As `collect_any_text`, for the border channel. -/
theorem collect_any_border (ct : Contrast ℚ) (fthr : ℚ) :
    (((collect_cvd_failures ct fthr).any fun f => f.channel = "border") = true ↔
      channelCvdFailure "border" ct.border_on_bg 3.0 ≠ []) := by
  constructor
  · intro h
    simp only [List.any_eq_true, decide_eq_true_eq] at h
    obtain ⟨f, hf, hch⟩ := h
    unfold collect_cvd_failures at hf
    rcases List.mem_append.mp hf with hf2 | hf3
    · rcases List.mem_append.mp hf2 with hft | hfb
      · have hn := (channelCvdFailure_spec "text" ct.text_on_bg fthr).2 f hft
        rw [hn] at hch
        exact absurd hch (by decide)
      · exact List.ne_nil_of_mem hfb
    · have hn := (channelCvdFailure_spec "outline" ct.outline_on_bg 3.0).2 f hf3
      rw [hn] at hch
      exact absurd hch (by decide)
  · intro h
    obtain ⟨f, hf⟩ := List.exists_mem_of_ne_nil _ h
    simp only [List.any_eq_true, decide_eq_true_eq]
    refine ⟨f, ?_, (channelCvdFailure_spec "border" ct.border_on_bg 3.0).2 f hf⟩
    unfold collect_cvd_failures
    exact List.mem_append_left _ (List.mem_append_right _ hf)

/-- As `collect_any_text`, for the outline channel. -/
theorem collect_any_outline (ct : Contrast ℚ) (fthr : ℚ) :
    (((collect_cvd_failures ct fthr).any fun f => f.channel = "outline") = true ↔
      channelCvdFailure "outline" ct.outline_on_bg 3.0 ≠ []) := by
  constructor
  · intro h
    simp only [List.any_eq_true, decide_eq_true_eq] at h
    obtain ⟨f, hf, hch⟩ := h
    unfold collect_cvd_failures at hf
    rcases List.mem_append.mp hf with hf2 | hf3
    · rcases List.mem_append.mp hf2 with hft | hfb
      · have hn := (channelCvdFailure_spec "text" ct.text_on_bg fthr).2 f hft
        rw [hn] at hch
        exact absurd hch (by decide)
      · have hn := (channelCvdFailure_spec "border" ct.border_on_bg 3.0).2 f hfb
        rw [hn] at hch
        exact absurd hch (by decide)
    · exact List.ne_nil_of_mem hf3
  · intro h
    obtain ⟨f, hf⟩ := List.exists_mem_of_ne_nil _ h
    simp only [List.any_eq_true, decide_eq_true_eq]
    refine ⟨f, ?_, (channelCvdFailure_spec "outline" ct.outline_on_bg 3.0).2 f hf⟩
    unfold collect_cvd_failures
    exact List.mem_append_right _ hf

/-- Claim C3: for every channel contrast mapping and threshold, the
CVD-only-vulnerable flag holds iff the channel is present, its normal
ratio is non-null and at least the threshold, and some CVD ratio is
non-null and below the threshold — for `normal_pass_but_cvd_fail`
(`ui_contrast_audit.py`), and `cvd_only_flag` and `_collect_cvd_failures`
(`report.py`); in particular a channel with a null or already-failing
normal ratio is never CVD-only-vulnerable. -/
theorem C3_cvd_only_iff :
    (∀ (c : Option (VisionMap ℚ)) (thr : ℚ),
      (normal_pass_but_cvd_fail c thr = true ↔ cvdOnlySpec c thr)) ∧
    (∀ (g : ReportGroup) (ch : String) (thr : ℚ),
      (cvd_only_flag g ch thr = true ↔ cvdOnlySpec (contrastGet g.contrast ch) thr)) ∧
    (∀ (ct : Contrast ℚ) (fthr : ℚ),
      (((collect_cvd_failures ct fthr).any fun f => f.channel = "text") = true ↔
        cvdOnlySpec ct.text_on_bg fthr) ∧
      (((collect_cvd_failures ct fthr).any fun f => f.channel = "border") = true ↔
        cvdOnlySpec ct.border_on_bg 3.0) ∧
      (((collect_cvd_failures ct fthr).any fun f => f.channel = "outline") = true ↔
        cvdOnlySpec ct.outline_on_bg 3.0)) := by
  refine ⟨normal_pass_iff_spec, ?_, ?_⟩
  · intro g ch thr
    have hflag : cvd_only_flag g ch thr = normal_pass_but_cvd_fail (contrastGet g.contrast ch) thr := by
      unfold cvd_only_flag normal_pass_but_cvd_fail
      rfl
    rw [hflag]
    exact normal_pass_iff_spec _ _
  · intro ct fthr
    exact ⟨(collect_any_text ct fthr).trans (channelCvdFailure_spec "text" ct.text_on_bg fthr).1,
      (collect_any_border ct fthr).trans (channelCvdFailure_spec "border" ct.border_on_bg 3.0).1,
      (collect_any_outline ct fthr).trans (channelCvdFailure_spec "outline" ct.outline_on_bg 3.0).1⟩

/-- The merge loop adds one to the count per merged record. -/
theorem foldl_update_count (t : List ElementData) (g : StyleGroup) :
    (t.foldl updateGroup g).count = g.count + t.length := by
  induction t generalizing g with
  | nil => simp
  | cons d rest ih =>
    rw [List.foldl_cons, ih]
    simp only [updateGroup, List.length_cons]
    omega

/-- The merge loop counts the records with the `required` flag. -/
theorem foldl_update_required (t : List ElementData) (g : StyleGroup) :
    (t.foldl updateGroup g).requiredExamples =
      g.requiredExamples + t.countP (fun d => d.required) := by
  induction t generalizing g with
  | nil => simp
  | cons d rest ih =>
    rw [List.foldl_cons, ih, List.countP_cons]
    simp only [updateGroup]
    rcases hd : d.required <;> simp [hd] <;> omega

/-- The merge loop counts the records with the `aria-invalid` flag. -/
theorem foldl_update_aria (t : List ElementData) (g : StyleGroup) :
    (t.foldl updateGroup g).ariaInvalidExamples =
      g.ariaInvalidExamples + t.countP (fun d => d.ariaInvalid) := by
  induction t generalizing g with
  | nil => simp
  | cons d rest ih =>
    rw [List.foldl_cons, ih, List.countP_cons]
    simp only [updateGroup]
    rcases hd : d.ariaInvalid <;> simp [hd] <;> omega

/-- Claim C2 is false as stated: merging the same two same-key records in
the two possible orders yields different style groups — the sample-label
list preserves first-seen insertion order, so the merged state is not
independent of input order. -/
theorem C2_merge_counterexample :
    mergeRecords "interactive" "base" "button" [c2RecordA, c2RecordB] ≠
      mergeRecords "interactive" "base" "button" [c2RecordB, c2RecordA] ∧
    (mergeRecords "interactive" "base" "button" [c2RecordA, c2RecordB]).map
      (fun g => g.sampleLabels) = some ["a", "b"] ∧
    (mergeRecords "interactive" "base" "button" [c2RecordB, c2RecordA]).map
      (fun g => g.sampleLabels) = some ["b", "a"] := by
  refine ⟨by decide, by decide, by decide⟩

/-- Claim C2 (amended): the merge of same-key records is order-independent
in its count and accessibility counters — the count is the number of
records and each counter is the number of records with its flag, so any
permutation of the input yields the same values — but the bounded sample
lists depend on the input order (they keep first-seen insertion order, as
the counterexample shows). -/
theorem C2_merge_amended (layer state category : String) (l1 l2 : List ElementData)
    (h : l1.Perm l2) :
    ((mergeRecords layer state category l1).map (fun g => g.count) =
      (mergeRecords layer state category l2).map fun g => g.count) ∧
    ((mergeRecords layer state category l1).map (fun g => g.requiredExamples) =
      (mergeRecords layer state category l2).map fun g => g.requiredExamples) ∧
    ((mergeRecords layer state category l1).map (fun g => g.ariaInvalidExamples) =
      (mergeRecords layer state category l2).map fun g => g.ariaInvalidExamples) := by
  rcases l1 with _ | ⟨d1, t1⟩
  · have h2 : l2 = [] := h.symm.eq_nil
    subst h2
    exact ⟨rfl, rfl, rfl⟩
  · rcases l2 with _ | ⟨d2, t2⟩
    · exact absurd h.eq_nil (List.cons_ne_nil d1 t1)
    · have hlen := h.length_eq
      simp only [List.length_cons] at hlen
      have hreq := h.countP_eq (fun d => d.required)
      have haria := h.countP_eq (fun d => d.ariaInvalid)
      rw [List.countP_cons, List.countP_cons] at hreq haria
      refine ⟨?_, ?_, ?_⟩
      · simp only [mergeRecords, Option.map_some']
        rw [foldl_update_count, foldl_update_count]
        simp only [initGroup, Option.some.injEq]
        omega
      · simp only [mergeRecords, Option.map_some']
        rw [foldl_update_required, foldl_update_required]
        simp only [initGroup]
        rcases hd1 : d1.required <;> rcases hd2 : d2.required <;>
          simp only [hd1, hd2] at hreq ⊢ <;> simp_all <;> omega
      · simp only [mergeRecords, Option.map_some']
        rw [foldl_update_aria, foldl_update_aria]
        simp only [initGroup]
        rcases hd1 : d1.ariaInvalid <;> rcases hd2 : d2.ariaInvalid <;>
          simp only [hd1, hd2] at haria ⊢ <;> simp_all <;> omega

/-- Witness for C2 (amended) on the concrete two-record permutation. -/
theorem C2_merge_amended_witness :
    [c2RecordA, c2RecordB].Perm [c2RecordB, c2RecordA] ∧
    ((mergeRecords "interactive" "base" "button" [c2RecordA, c2RecordB]).map (fun g => g.count) =
      (mergeRecords "interactive" "base" "button" [c2RecordB, c2RecordA]).map fun g => g.count) :=
  ⟨List.Perm.swap c2RecordB c2RecordA [],
    (C2_merge_amended "interactive" "base" "button" _ _ (List.Perm.swap c2RecordB c2RecordA [])).1⟩

/-- `simulate_rgb` succeeds on the literal deficiency names used by
`contrast_for_all_vision`. -/
theorem simulate_rgb_valid (sim : RGB → CvdKind → RGB) (x : RGB) :
    simulate_rgb sim (some x) "protanopia" = .ok (some (sim x .protan)) ∧
    simulate_rgb sim (some x) "deuteranopia" = .ok (some (sim x .deutan)) ∧
    simulate_rgb sim (some x) "tritanopia" = .ok (some (sim x .tritan)) :=
  ⟨rfl, rfl, rfl⟩

/-- The contrast ratio of two present colors is always present. -/
theorem contrastRatioR_isSome (a b : RGB) : (contrastRatioR (some a) (some b)).isSome := rfl

/-- All four vision-type entries are present when both colors parsed. -/
theorem cfav_all_some (sim : RGB → CvdKind → RGB) (a b : RGB) :
    (contrast_for_all_vision sim (some a) (some b)).normal.isSome ∧
    (contrast_for_all_vision sim (some a) (some b)).protanopia.isSome ∧
    (contrast_for_all_vision sim (some a) (some b)).deuteranopia.isSome ∧
    (contrast_for_all_vision sim (some a) (some b)).tritanopia.isSome :=
  ⟨rfl, rfl, rfl, rfl⟩

/-- Claim C9: in `compute_group_contrasts`, each channel is either absent
— exactly when one of its two colors fails to parse — or a mapping with a
non-null ratio for all four vision types; never partially populated. -/
theorem C9_channel_all_or_nothing (sim : RGB → CvdKind → RGB) (g : StyleGroup) :
    ((compute_group_contrasts sim g).text_on_bg = none ↔
      (parse_css_color_to_rgb g.textColor = none ∨
        parse_css_color_to_rgb g.backgroundColor = none)) ∧
    (∀ m, (compute_group_contrasts sim g).text_on_bg = some m →
      m.normal.isSome ∧ m.protanopia.isSome ∧ m.deuteranopia.isSome ∧ m.tritanopia.isSome) ∧
    ((compute_group_contrasts sim g).border_on_bg = none ↔
      (parse_css_color_to_rgb g.borderColor = none ∨
        parse_css_color_to_rgb g.backgroundColor = none)) ∧
    (∀ m, (compute_group_contrasts sim g).border_on_bg = some m →
      m.normal.isSome ∧ m.protanopia.isSome ∧ m.deuteranopia.isSome ∧ m.tritanopia.isSome) ∧
    ((compute_group_contrasts sim g).outline_on_bg = none ↔
      (parse_css_color_to_rgb g.outlineColor = none ∨
        parse_css_color_to_rgb g.backgroundColor = none)) ∧
    (∀ m, (compute_group_contrasts sim g).outline_on_bg = some m →
      m.normal.isSome ∧ m.protanopia.isSome ∧ m.deuteranopia.isSome ∧ m.tritanopia.isSome) := by
  unfold compute_group_contrasts
  rcases hB : parse_css_color_to_rgb g.backgroundColor with _ | b <;>
    rcases hT : parse_css_color_to_rgb g.textColor with _ | a <;>
    rcases hBo : parse_css_color_to_rgb g.borderColor with _ | c <;>
    rcases hO : parse_css_color_to_rgb g.outlineColor with _ | d <;>
  · refine ⟨?_, ?_, ?_, ?_, ?_, ?_⟩ <;>
      simp only [hB, hT, hBo, hO, Option.isSome_some, Option.isSome_none, and_true, and_false,
        if_true, if_false, true_and, false_and, reduceCtorEq, or_true, or_false, true_or,
        false_or, iff_true, iff_false, ne_eq, not_false_eq_true, not_true_eq_false] <;>
      first
        | exact ⟨rfl, rfl, rfl, rfl⟩
        | (intro m hm
           injection hm with hm
           subst hm
           exact ⟨rfl, rfl, rfl, rfl⟩)
        | simp

/-- Witness for C9 on a concrete group whose text and background colors
parse. -/
theorem C9_channel_all_or_nothing_witness :
    ¬(parse_css_color_to_rgb (initGroup "interactive" "base" "button" c2RecordA).textColor = none ∨
      parse_css_color_to_rgb
        (initGroup "interactive" "base" "button" c2RecordA).backgroundColor = none) ∧
    (compute_group_contrasts (fun c _ => c)
      (initGroup "interactive" "base" "button" c2RecordA)).text_on_bg ≠ none := by
  have hnp : ¬(parse_css_color_to_rgb
        (initGroup "interactive" "base" "button" c2RecordA).textColor = none ∨
      parse_css_color_to_rgb
        (initGroup "interactive" "base" "button" c2RecordA).backgroundColor = none) := by
    decide
  exact ⟨hnp, fun h =>
    hnp ((C9_channel_all_or_nothing (fun c _ => c)
      (initGroup "interactive" "base" "button" c2RecordA)).1.mp h)⟩

/-- Once the `worst_case` loop holds a value, it always reports one. -/
theorem wcLoop_fst_isSome (l : List (String × Option ℚ)) :
    ∀ (b : ℚ) (k : String), (wcLoop (some b, some k) l).1.isSome := by
  induction l with
  | nil => intro b k; rfl
  | cons q rest ih =>
    intro b k
    rcases hq : q.2 with _ | x
    · simpa [wcLoop, wcStep, hq] using ih b k
    · simp only [wcLoop, wcStep, hq]
      split_ifs
      · exact ih _ _
      · exact ih b k

/-- The `worst_case` loop reports nothing iff every entry is null. -/
theorem wcLoop_all_none (l : List (String × Option ℚ)) :
    wcLoop (none, none) l = (none, none) ↔ ∀ p ∈ l, p.2 = none := by
  induction l with
  | nil => simp [wcLoop]
  | cons q rest ih =>
    rcases hq : q.2 with _ | x
    · simp only [wcLoop, wcStep, hq]
      rw [ih]
      constructor
      · intro hall p hp
        rcases List.mem_cons.mp hp with rfl | hp2
        · exact hq
        · exact hall p hp2
      · intro hall p hp
        exact hall p (List.mem_cons_of_mem q hp)
    · simp only [wcLoop, wcStep, hq]
      constructor
      · intro hcontra
        have hsome := wcLoop_fst_isSome rest x q.1
        rw [hcontra] at hsome
        exact absurd hsome (by simp)
      · intro hall
        have hqn := hall q (List.mem_cons_self q rest)
        rw [hqn] at hq
        exact absurd hq (by simp)

/-- Running the `worst_case` loop from a held value `(b, bk)`: the result
is either the held value (and no later entry is smaller) or the first
later entry strictly smaller than everything before it and no larger than
everything after it. -/
theorem wcLoop_acc_spec (l : List (String × Option ℚ)) :
    ∀ (b : ℚ) (bk : String) (v : ℚ) (k : String),
    wcLoop (some b, some bk) l = (some v, some k) →
    ((v = b ∧ k = bk ∧ ∀ p ∈ l, ∀ w, p.2 = some w → v ≤ w) ∨
      (∃ l₁ l₂, l = l₁ ++ (k, some v) :: l₂ ∧ v < b ∧
        (∀ p ∈ l₁, ∀ w, p.2 = some w → v < w) ∧
        (∀ p ∈ l₂, ∀ w, p.2 = some w → v ≤ w))) := by
  induction l with
  | nil =>
    intro b bk v k h
    simp only [wcLoop] at h
    injection h with h1 h2
    injection h1 with h1
    injection h2 with h2
    subst h1
    subst h2
    exact Or.inl ⟨rfl, rfl, by simp⟩
  | cons q rest ih =>
    intro b bk v k h
    rcases hq : q.2 with _ | x
    · have h' : wcLoop (some b, some bk) rest = (some v, some k) := by
        simpa [wcLoop, wcStep, hq] using h
      rcases ih b bk v k h' with ⟨hv, hk, hall⟩ | ⟨l₁, l₂, heq, hlt, h1, h2⟩
      · refine Or.inl ⟨hv, hk, ?_⟩
        intro p hp w hw
        rcases List.mem_cons.mp hp with rfl | hp2
        · rw [hq] at hw; exact absurd hw (by simp)
        · exact hall p hp2 w hw
      · refine Or.inr ⟨q :: l₁, l₂, by rw [heq]; rfl, hlt, ?_, h2⟩
        intro p hp w hw
        rcases List.mem_cons.mp hp with rfl | hp2
        · rw [hq] at hw; exact absurd hw (by simp)
        · exact h1 p hp2 w hw
    · by_cases hx : x < b
      · have h' : wcLoop (some x, some q.1) rest = (some v, some k) := by
          simpa [wcLoop, wcStep, hq, hx] using h
        rcases ih x q.1 v k h' with ⟨hv, hk, hall⟩ | ⟨l₁, l₂, heq, hlt, h1, h2⟩
        · refine Or.inr ⟨[], rest, ?_, ?_, by simp, hall⟩
          · rw [List.nil_append]
            congr 1
            rcases q with ⟨qn, qv⟩
            simp only at hq hk
            rw [hk, hq, hv]
          · rw [hv]; exact hx
        · refine Or.inr ⟨q :: l₁, l₂, by rw [heq]; rfl, lt_trans hlt hx, ?_, h2⟩
          intro p hp w hw
          rcases List.mem_cons.mp hp with rfl | hp2
          · rw [hq] at hw
            injection hw with hw
            subst hw
            exact hlt
          · exact h1 p hp2 w hw
      · have h' : wcLoop (some b, some bk) rest = (some v, some k) := by
          simpa [wcLoop, wcStep, hq, hx] using h
        rcases ih b bk v k h' with ⟨hv, hk, hall⟩ | ⟨l₁, l₂, heq, hlt, h1, h2⟩
        · refine Or.inl ⟨hv, hk, ?_⟩
          intro p hp w hw
          rcases List.mem_cons.mp hp with rfl | hp2
          · rw [hq] at hw
            injection hw with hw
            subst hw
            rw [hv]
            exact not_lt.mp hx
          · exact hall p hp2 w hw
        · refine Or.inr ⟨q :: l₁, l₂, by rw [heq]; rfl, hlt, ?_, h2⟩
          intro p hp w hw
          rcases List.mem_cons.mp hp with rfl | hp2
          · rw [hq] at hw
            injection hw with hw
            subst hw
            exact lt_of_lt_of_le hlt (not_lt.mp hx)
          · exact h1 p hp2 w hw

/-- The `worst_case` loop from an empty accumulator: a reported result
splits the entry list at the responsible entry, every earlier non-null
entry is strictly larger (so ties resolve to the earliest type), and
every later non-null entry is at least the minimum. -/
theorem wcLoop_none_spec (l : List (String × Option ℚ)) :
    ∀ (v : ℚ) (k : String),
    wcLoop (none, none) l = (some v, some k) →
    ∃ l₁ l₂, l = l₁ ++ (k, some v) :: l₂ ∧
      (∀ p ∈ l₁, ∀ w, p.2 = some w → v < w) ∧
      (∀ p ∈ l₂, ∀ w, p.2 = some w → v ≤ w) := by
  induction l with
  | nil =>
    intro v k h
    simp only [wcLoop] at h
    injection h with h1 h2
    exact absurd h1 (by simp)
  | cons q rest ih =>
    intro v k h
    rcases hq : q.2 with _ | x
    · have h' : wcLoop (none, none) rest = (some v, some k) := by
        simpa [wcLoop, wcStep, hq] using h
      obtain ⟨l₁, l₂, heq, h1, h2⟩ := ih v k h'
      refine ⟨q :: l₁, l₂, by rw [heq]; rfl, ?_, h2⟩
      intro p hp w hw
      rcases List.mem_cons.mp hp with rfl | hp2
      · rw [hq] at hw; exact absurd hw (by simp)
      · exact h1 p hp2 w hw
    · have h' : wcLoop (some x, some q.1) rest = (some v, some k) := by
        simpa [wcLoop, wcStep, hq] using h
      rcases wcLoop_acc_spec rest x q.1 v k h' with ⟨hv, hk, hall⟩ | ⟨l₁, l₂, heq, hlt, h1, h2⟩
      · refine ⟨[], rest, ?_, by simp, hall⟩
        rw [List.nil_append]
        congr 1
        rcases q with ⟨qn, qv⟩
        simp only at hq hk
        rw [hk, hq, hv]
      · refine ⟨q :: l₁, l₂, by rw [heq]; rfl, ?_, h2⟩
        intro p hp w hw
        rcases List.mem_cons.mp hp with rfl | hp2
        · rw [hq] at hw
          injection hw with hw
          subst hw
          exact hlt
        · exact h1 p hp2 w hw

/-- If the loop from an empty accumulator reports no minimum, every entry
was null. -/
theorem wcLoop_fst_none_all (l : List (String × Option ℚ)) :
    (wcLoop (none, none) l).1 = none → ∀ p ∈ l, p.2 = none := by
  induction l with
  | nil => simp
  | cons q rest ih =>
    intro h p hp
    rcases hq : q.2 with _ | x
    · have h' : (wcLoop (none, none) rest).1 = none := by
        simpa [wcLoop, wcStep, hq] using h
      rcases List.mem_cons.mp hp with rfl | hp2
      · exact hq
      · exact ih h' p hp2
    · exfalso
      have hsome := wcLoop_fst_isSome rest x q.1
      have h' : (wcLoop (some x, some q.1) rest).1 = none := by
        simpa [wcLoop, wcStep, hq] using h
      rw [h'] at hsome
      exact absurd hsome (by simp)

/-- Every reason produced for a channel carries that channel's name. -/
theorem reasonListSpec_names (name : String) (thr : ℚ) (wc : Option ℚ × Option String) :
    ∀ r ∈ reasonListSpec name thr wc, r.channel = name := by
  rcases wc with ⟨wv, wk⟩
  rcases wv with _ | w
  · simp [reasonListSpec]
  · simp only [reasonListSpec]
    split_ifs
    · intro r hr
      rcases List.mem_cons.mp hr with rfl | hr2
      · rfl
      · exact absurd hr2 (List.not_mem_nil r)
    · simp

/-- A channel produces a reason iff its worst case exists and falls below
the channel's threshold. -/
theorem reasonListSpec_exists_iff (name : String) (thr : ℚ) (wc : Option ℚ × Option String) :
    (∃ r ∈ reasonListSpec name thr wc, r.channel = name) ↔
      ∃ w, wc.1 = some w ∧ w < thr := by
  rcases wc with ⟨wv, wk⟩
  rcases wv with _ | w
  · simp [reasonListSpec]
  · simp only [reasonListSpec]
    split_ifs with hw
    · simp only [List.mem_singleton]
      constructor
      · intro hr
        exact ⟨w, rfl, hw⟩
      · intro hr
        exact ⟨⟨name, thr, w, wk⟩, rfl, rfl⟩
    · simp only [List.not_mem_nil, false_and]
      constructor
      · rintro ⟨r, hr⟩
        exact hr.elim
      · rintro ⟨x, hx, hlt⟩
        injection hx with hx
        subst hx
        exact absurd hlt hw

/-- Locating a channel's reasons inside the concatenated reason list when
the other two channels carry different names. -/
theorem exists_channel_in_append (query nb nc : String) (A B C : List Reason)
    (hA : ∀ r ∈ A, r.channel = query) (hB : ∀ r ∈ B, r.channel = nb)
    (hC : ∀ r ∈ C, r.channel = nc) (hnb : nb ≠ query) (hnc : nc ≠ query) :
    (∃ r ∈ A ++ B ++ C, r.channel = query) ↔ (∃ r ∈ A, r.channel = query) := by
  constructor
  · rintro ⟨r, hr, hch⟩
    rcases List.mem_append.mp hr with h2 | h3
    · rcases List.mem_append.mp h2 with ha | hb
      · exact ⟨r, ha, hch⟩
      · exact absurd ((hB r hb).symm.trans hch) hnb
    · exact absurd ((hC r h3).symm.trans hch) hnc
  · rintro ⟨r, ha, hch⟩
    exact ⟨r, List.mem_append_left _ (List.mem_append_left _ ha), hch⟩

/-- As `exists_channel_in_append`, for the middle block. -/
theorem exists_channel_in_append_mid (query na nc : String) (A B C : List Reason)
    (hA : ∀ r ∈ A, r.channel = na) (hB : ∀ r ∈ B, r.channel = query)
    (hC : ∀ r ∈ C, r.channel = nc) (hna : na ≠ query) (hnc : nc ≠ query) :
    (∃ r ∈ A ++ B ++ C, r.channel = query) ↔ (∃ r ∈ B, r.channel = query) := by
  constructor
  · rintro ⟨r, hr, hch⟩
    rcases List.mem_append.mp hr with h2 | h3
    · rcases List.mem_append.mp h2 with ha | hb
      · exact absurd ((hA r ha).symm.trans hch) hna
      · exact ⟨r, hb, hch⟩
    · exact absurd ((hC r h3).symm.trans hch) hnc
  · rintro ⟨r, hb, hch⟩
    exact ⟨r, List.mem_append_left _ (List.mem_append_right _ hb), hch⟩

/-- As `exists_channel_in_append`, for the right block. -/
theorem exists_channel_in_append_right (query na nb : String) (A B C : List Reason)
    (hA : ∀ r ∈ A, r.channel = na) (hB : ∀ r ∈ B, r.channel = nb)
    (hC : ∀ r ∈ C, r.channel = query) (hna : na ≠ query) (hnb : nb ≠ query) :
    (∃ r ∈ A ++ B ++ C, r.channel = query) ↔ (∃ r ∈ C, r.channel = query) := by
  constructor
  · rintro ⟨r, hr, hch⟩
    rcases List.mem_append.mp hr with h2 | h3
    · rcases List.mem_append.mp h2 with ha | hb
      · exact absurd ((hA r ha).symm.trans hch) hna
      · exact absurd ((hB r hb).symm.trans hch) hnb
    · exact ⟨r, h3, hch⟩
  · rintro ⟨r, hc, hch⟩
    exact ⟨r, List.mem_append_right _ hc, hch⟩

/-- Claim C6: `worst_case` returns the minimum over the non-null
vision-type ratios paired with the responsible vision type, ties resolved
to the earliest type in the fixed order (it is null exactly when every
entry is null); `classify_failure` emits reasons in the fixed order
text → border → outline, one reason per channel exactly when the
channel's worst case falls below its threshold (the font threshold for
text, 3.0 for border and outline), each reason embedding the threshold,
the worst ratio, and the responsible vision type; an absent channel
contributes no reason; `is_vulnerable` holds iff some reason was
generated. -/
theorem C6_worst_case_and_reasons (g : ReportGroup) (m : VisionMap ℚ) :
    worst_case none = (none, none) ∧
    ((worst_case (some m)).1 = none ↔ ∀ p ∈ typedEntries m, p.2 = none) ∧
    (∀ v k, worst_case (some m) = (some v, some k) →
      ∃ l₁ l₂, typedEntries m = l₁ ++ (k, some v) :: l₂ ∧
        (∀ p ∈ l₁, ∀ w, p.2 = some w → v < w) ∧
        (∀ p ∈ l₂, ∀ w, p.2 = some w → v ≤ w)) ∧
    ((classify_failure g).font_threshold = threshold_for_font g.fontSize g.fontWeight) ∧
    ((classify_failure g).reasons =
      reasonListSpec "text" (threshold_for_font g.fontSize g.fontWeight)
        (worst_case g.contrast.text_on_bg) ++
      reasonListSpec "border" 3.0 (worst_case g.contrast.border_on_bg) ++
      reasonListSpec "outline" 3.0 (worst_case g.contrast.outline_on_bg)) ∧
    ((classify_failure g).is_vulnerable = true ↔ (classify_failure g).reasons ≠ []) ∧
    ((∃ r ∈ (classify_failure g).reasons, r.channel = "text") ↔
      (∃ w, (worst_case g.contrast.text_on_bg).1 = some w ∧
        w < threshold_for_font g.fontSize g.fontWeight)) ∧
    ((∃ r ∈ (classify_failure g).reasons, r.channel = "border") ↔
      (∃ w, (worst_case g.contrast.border_on_bg).1 = some w ∧ w < 3.0)) ∧
    ((∃ r ∈ (classify_failure g).reasons, r.channel = "outline") ↔
      (∃ w, (worst_case g.contrast.outline_on_bg).1 = some w ∧ w < 3.0)) := by
  have hreasons : (classify_failure g).reasons =
      reasonListSpec "text" (threshold_for_font g.fontSize g.fontWeight)
        (worst_case g.contrast.text_on_bg) ++
      reasonListSpec "border" 3.0 (worst_case g.contrast.border_on_bg) ++
      reasonListSpec "outline" 3.0 (worst_case g.contrast.outline_on_bg) := rfl
  refine ⟨rfl, ?_, ?_, rfl, hreasons, ?_, ?_, ?_, ?_⟩
  · constructor
    · intro h
      exact wcLoop_fst_none_all (typedEntries m) h
    · intro hall
      have hres := (wcLoop_all_none (typedEntries m)).mpr hall
      show (wcLoop (none, none) (typedEntries m)).1 = none
      rw [hres]
  · intro v k h
    exact wcLoop_none_spec (typedEntries m) v k h
  · have hlen : (classify_failure g).is_vulnerable =
        decide ((classify_failure g).reasons.length > 0) := rfl
    rw [hlen]
    simp [List.length_pos]
  · rw [hreasons]
    rw [exists_channel_in_append "text" "border" "outline" _ _ _
      (reasonListSpec_names _ _ _) (reasonListSpec_names _ _ _) (reasonListSpec_names _ _ _)
      (by decide) (by decide)]
    exact reasonListSpec_exists_iff _ _ _
  · rw [hreasons]
    rw [exists_channel_in_append_mid "border" "text" "outline" _ _ _
      (reasonListSpec_names _ _ _) (reasonListSpec_names _ _ _) (reasonListSpec_names _ _ _)
      (by decide) (by decide)]
    exact reasonListSpec_exists_iff _ _ _
  · rw [hreasons]
    rw [exists_channel_in_append_right "outline" "text" "border" _ _ _
      (reasonListSpec_names _ _ _) (reasonListSpec_names _ _ _) (reasonListSpec_names _ _ _)
      (by decide) (by decide)]
    exact reasonListSpec_exists_iff _ _ _

/-- Witness for C6: the tie between normal and protanopia resolves to
normal, and the CVD-only-vulnerable group generates a text reason. -/
theorem C6_worst_case_and_reasons_witness :
    (∃ l₁ l₂, typedEntries c6TieMap = l₁ ++ ("normal", some 2) :: l₂ ∧
      (∀ p ∈ l₁, ∀ w, p.2 = some w → 2 < w) ∧
      (∀ p ∈ l₂, ∀ w, p.2 = some w → 2 ≤ w)) ∧
    (∃ r ∈ (classify_failure vulnGroup).reasons, r.channel = "text") := by
  have h := C6_worst_case_and_reasons vulnGroup c6TieMap
  have hthr : threshold_for_font vulnGroup.fontSize vulnGroup.fontWeight = 4.5 := by
    with_unfolding_all rfl
  refine ⟨h.2.2.1 2 "normal" (by with_unfolding_all rfl), ?_⟩
  exact (h.2.2.2.2.2.2.1).mpr ⟨2, by with_unfolding_all rfl, by rw [hthr]; norm_num⟩

/-- Half-even rounding stays within an integer interval containing the
input. -/
theorem roundHalfEven_bounds (q : ℚ) (h0 : 0 ≤ q) (h1 : q ≤ 1000) :
    0 ≤ roundHalfEven q ∧ roundHalfEven q ≤ 1000 := by
  unfold roundHalfEven
  have hf0 : (0 : ℤ) ≤ ⌊q⌋ := Int.floor_nonneg.mpr h0
  have hfle : (⌊q⌋ : ℚ) ≤ q := Int.floor_le q
  have hfub : ⌊q⌋ ≤ 1000 := by
    have h := Int.floor_le_floor h1
    have h1000 : ⌊(1000 : ℚ)⌋ = 1000 := by norm_num
    omega
  have hsucc : ¬ q - ⌊q⌋ < 1 / 2 → ⌊q⌋ + 1 ≤ 1000 := by
    intro hr
    push_neg at hr
    have : (⌊q⌋ : ℚ) < 1000 := by linarith
    have : ⌊q⌋ < 1000 := by exact_mod_cast this
    omega
  split_ifs with hr1 hr2 heven
  · exact ⟨hf0, hfub⟩
  · exact ⟨by omega, hsucc hr1⟩
  · exact ⟨hf0, hfub⟩
  · exact ⟨by omega, hsucc hr1⟩

/-- Rounding a ratio in the unit interval to three decimals stays in the
unit interval. -/
theorem round3Q_bounds (q : ℚ) (h0 : 0 ≤ q) (h1 : q ≤ 1) :
    0 ≤ round3Q q ∧ round3Q q ≤ 1 := by
  unfold round3Q
  obtain ⟨ha, hb⟩ := roundHalfEven_bounds (1000 * q) (by linarith) (by linarith)
  have ha2 : (0 : ℚ) ≤ (roundHalfEven (1000 * q) : ℚ) := by exact_mod_cast ha
  have hb2 : ((roundHalfEven (1000 * q)) : ℚ) ≤ 1000 := by exact_mod_cast hb
  exact ⟨div_nonneg ha2 (by norm_num),
    (div_le_one (by norm_num : (0 : ℚ) < 1000)).mpr hb2⟩

/-- `compute_cvi` produces exactly the per-site rows of `cviRowSpec`. -/
theorem compute_cvi_eq_filterMap (sites : List (String × SiteBlob)) :
    compute_cvi sites = sites.filterMap cviRowSpec := by
  induction sites with
  | nil => rfl
  | cons p rest ih =>
    rcases p with ⟨name, blob⟩
    rcases hb : blob.error with _ | e
    · by_cases hg : blob.groups = []
      · have hlen : blob.groups.length = 0 := by rw [hg]; rfl
        simp [compute_cvi, hb, hg, hlen, cviRowSpec, ih, List.filterMap_cons]
      · have hlen : ¬ blob.groups.length = 0 := by
          simpa [List.length_eq_zero] using hg
        simp [compute_cvi, hb, hg, hlen, cviRowSpec, ih, List.filterMap_cons]
    · simp [compute_cvi, hb, cviRowSpec, ih, List.filterMap_cons]

/-- Every CVI row stays in the unit interval. -/
theorem compute_cvi_row_bounds (sites : List (String × SiteBlob)) :
    ∀ row ∈ compute_cvi sites, 0 ≤ row.cvi ∧ row.cvi ≤ 1 := by
  intro row hrow
  rw [compute_cvi_eq_filterMap] at hrow
  obtain ⟨p, hp, hspec⟩ := List.mem_filterMap.mp hrow
  unfold cviRowSpec at hspec
  split_ifs at hspec with hcond
  · injection hspec with hspec
    subst hspec
    dsimp only
    apply round3Q_bounds
    · positivity
    · have hle : (p.2.groups.countP groupIsCvdOnly : ℚ) ≤ (p.2.groups.length : ℚ) := by
        exact_mod_cast List.countP_le_length _
      have hpos : 0 < (p.2.groups.length : ℚ) := by
        have hne : p.2.groups ≠ [] := hcond.2
        have hlp : 0 < p.2.groups.length := List.length_pos.mpr hne
        exact_mod_cast hlp
      rw [div_le_one hpos]
      exact hle

/-- Claim C4 is false as stated: the reported `cvi` is the ratio rounded
to three decimals, not the exact ratio.  With three groups of which one
is CVD-only vulnerable, the code reports 0.333 while the claim's value
would be 1/3. -/
theorem C4_cvi_counterexample :
    (compute_cvi c4Sites).map (fun r => r.cvi) = [333 / 1000] ∧
    (333 / 1000 : ℚ) ≠ 1 / 3 ∧
    (compute_cvi c4Sites).map (fun r => r.total_vulnerable) = [1] ∧
    (compute_cvi c4Sites).map (fun r => r.total_styles) = [3] := by
  refine ⟨by with_unfolding_all rfl, by norm_num, by with_unfolding_all rfl,
    by with_unfolding_all rfl⟩

/-- Claim C4 (amended): `compute_cvi` returns exactly one row per site
with no error entry and at least one group (error or empty sites are
omitted, never reported as 0); each row's `cvi` equals the ratio of
CVD-only-vulnerable groups to total groups rounded to three decimals,
lies in [0, 1], and carries the first-match risk category of that rounded
value — as expressed by `cviRowSpec`. -/
theorem C4_cvi_amended (sites : List (String × SiteBlob)) :
    compute_cvi sites = sites.filterMap cviRowSpec ∧
    ∀ row ∈ compute_cvi sites, 0 ≤ row.cvi ∧ row.cvi ≤ 1 :=
  ⟨compute_cvi_eq_filterMap sites, compute_cvi_row_bounds sites⟩

/-- Witness for C4 (amended) on the concrete one-site document. -/
theorem C4_cvi_amended_witness :
    (⟨"example.com", 333 / 1000, "Critical Risk", 1, 3⟩ : CviRow) ∈ compute_cvi c4Sites ∧
    0 ≤ (333 / 1000 : ℚ) ∧ (333 / 1000 : ℚ) ≤ 1 := by
  have hrow : compute_cvi c4Sites =
      [⟨"example.com", 333 / 1000, "Critical Risk", 1, 3⟩] := by
    with_unfolding_all rfl
  have hmem : (⟨"example.com", 333 / 1000, "Critical Risk", 1, 3⟩ : CviRow) ∈
      compute_cvi c4Sites := by
    rw [hrow]
    exact List.mem_singleton_self _
  exact ⟨hmem, (C4_cvi_amended c4Sites).2 _ hmem⟩

/-- Claim C10 is false as stated: `"rgba(1, 2, 3, 0)"` contains an
`rgba(...)` pattern with three numeric components, yet the parser returns
`None` — a numeric fourth component equal to zero (fully transparent
alpha) is rejected. -/
theorem C10_parser_counterexample :
    firstRgbParts "rgba(1, 2, 3, 0)" =
      some ["1".data, "2".data, "3".data, "0".data] ∧
    (pyFloatChars "1".data).isSome ∧ (pyFloatChars "2".data).isSome ∧
    (pyFloatChars "3".data).isSome ∧
    parse_css_color_to_rgb "rgba(1, 2, 3, 0)" = none := by
  refine ⟨by decide, by decide, by decide, by decide, by with_unfolding_all rfl⟩

/-- Claim C10 (amended): `parse_css_color_to_rgb` succeeds exactly when
the input is non-empty, its stripped lowered form is not `transparent`,
the first `rgb(`/`rgba(` regex match exists and splits into at least
three components whose first three are numeric, and any fourth component
is numeric and non-zero; surrounding text and components beyond the
fourth are ignored, and the returned components are the first three
values truncated toward zero and clamped into 0..255. -/
theorem C10_parser_amended (color : String) :
    ((parse_css_color_to_rgb color).isSome ↔ parseSuccSpec color) ∧
    (∀ p0 p1 p2 rest v0 v1 v2,
      firstRgbParts color = some (p0 :: p1 :: p2 :: rest) →
      color.data ≠ [] →
      lowerChars (trimChars color.data) ≠ "transparent".data →
      pyFloatChars p0 = some v0 → pyFloatChars p1 = some v1 → pyFloatChars p2 = some v2 →
      (∀ p3 t, rest = p3 :: t → ∃ a, pyFloatChars p3 = some a ∧ a ≠ 0) →
      parse_css_color_to_rgb color =
        some ⟨clamp255 (truncQ v0), clamp255 (truncQ v1), clamp255 (truncQ v2)⟩) := by
  have hvalue : ∀ p0 p1 p2 rest v0 v1 v2,
      firstRgbParts color = some (p0 :: p1 :: p2 :: rest) →
      color.data ≠ [] →
      lowerChars (trimChars color.data) ≠ "transparent".data →
      pyFloatChars p0 = some v0 → pyFloatChars p1 = some v1 → pyFloatChars p2 = some v2 →
      (∀ p3 t, rest = p3 :: t → ∃ a, pyFloatChars p3 = some a ∧ a ≠ 0) →
      parse_css_color_to_rgb color =
        some ⟨clamp255 (truncQ v0), clamp255 (truncQ v1), clamp255 (truncQ v2)⟩ := by
    intro p0 p1 p2 rest v0 v1 v2 hparts hne htr h0 h1 h2 halpha
    have hempty : ¬ color.data.isEmpty = true := by
      simpa [List.isEmpty_iff] using hne
    obtain ⟨inner, hinner, hmap⟩ := Option.map_eq_some'.mp hparts
    simp only [parse_css_color_to_rgb, if_neg hempty, if_neg htr, hinner, hmap, h0, h1, h2]
    rcases rest with _ | ⟨p3, t⟩
    · rfl
    · obtain ⟨a, ha, hne0⟩ := halpha p3 t rfl
      simp only [ha, if_neg hne0]
  refine ⟨?_, hvalue⟩
  constructor
  · intro hs
    by_cases hemp : color.data.isEmpty = true
    · simp [parse_css_color_to_rgb, hemp] at hs
    · by_cases htr : lowerChars (trimChars color.data) = "transparent".data
      · simp [parse_css_color_to_rgb, hemp, htr] at hs
      · have hne : color.data ≠ [] := by
          simpa [List.isEmpty_iff] using hemp
        rcases hsearch : rgbaSearch (lowerChars (trimChars color.data)) with _ | inner
        · simp [parse_css_color_to_rgb, hemp, htr, hsearch] at hs
        · rcases hparts : (splitOnChar ',' inner).map trimChars with
            _ | ⟨p0, _ | ⟨p1, _ | ⟨p2, rest⟩⟩⟩
          · simp [parse_css_color_to_rgb, hemp, htr, hsearch, hparts] at hs
          · simp [parse_css_color_to_rgb, hemp, htr, hsearch, hparts] at hs
          · simp [parse_css_color_to_rgb, hemp, htr, hsearch, hparts] at hs
          · have hfirst : firstRgbParts color = some (p0 :: p1 :: p2 :: rest) := by
              simp [firstRgbParts, hsearch, hparts]
            rcases h0 : pyFloatChars p0 with _ | v0
            · simp [parse_css_color_to_rgb, hemp, htr, hsearch, hparts, h0] at hs
            · rcases h1 : pyFloatChars p1 with _ | v1
              · simp [parse_css_color_to_rgb, hemp, htr, hsearch, hparts, h0, h1] at hs
              · rcases h2 : pyFloatChars p2 with _ | v2
                · simp [parse_css_color_to_rgb, hemp, htr, hsearch, hparts, h0, h1, h2] at hs
                · rcases hrest : rest with _ | ⟨p3, t⟩
                  · exact ⟨hne, htr, p0, p1, p2, [], by rw [← hrest]; exact hfirst,
                      by simp [h0], by simp [h1], by simp [h2], by simp⟩
                  · rcases ha : pyFloatChars p3 with _ | a
                    · simp [parse_css_color_to_rgb, hemp, htr, hsearch, hparts, h0, h1, h2,
                        hrest, ha] at hs
                    · by_cases ha0 : a = 0
                      · simp [parse_css_color_to_rgb, hemp, htr, hsearch, hparts, h0, h1, h2,
                          hrest, ha, ha0] at hs
                      · refine ⟨hne, htr, p0, p1, p2, p3 :: t, by rw [← hrest]; exact hfirst,
                          by simp [h0], by simp [h1], by simp [h2], ?_⟩
                        intro q u hq
                        injection hq with hq1 hq2
                        subst hq1
                        exact ⟨a, ha, ha0⟩
  · rintro ⟨hne, htr, p0, p1, p2, rest, hfirst, h0, h1, h2, halpha⟩
    rcases hv0 : pyFloatChars p0 with _ | v0
    · rw [hv0] at h0; exact absurd h0 (by simp)
    · rcases hv1 : pyFloatChars p1 with _ | v1
      · rw [hv1] at h1; exact absurd h1 (by simp)
      · rcases hv2 : pyFloatChars p2 with _ | v2
        · rw [hv2] at h2; exact absurd h2 (by simp)
        · rw [hvalue p0 p1 p2 rest v0 v1 v2 hfirst hne htr hv0 hv1 hv2 halpha]
          rfl

/-- Witness for C10 (amended): surrounding text is ignored, fractional
values are truncated toward zero, out-of-range values are clamped, and
components beyond the fourth are ignored. -/
theorem C10_parser_amended_witness :
    firstRgbParts "xx RGB(10.7, -5, 300.2) yy" =
      some ["10.7".data, "-5".data, "300.2".data] ∧
    pyFloatChars "10.7".data = some (107 / 10) ∧
    pyFloatChars "-5".data = some (-5) ∧
    pyFloatChars "300.2".data = some (3002 / 10) ∧
    parse_css_color_to_rgb "xx RGB(10.7, -5, 300.2) yy" = some ⟨10, 0, 255⟩ ∧
    parse_css_color_to_rgb "rgb(4, 5, 6, 1, zz)" = some ⟨4, 5, 6⟩ := by
  have hfirst : firstRgbParts "xx RGB(10.7, -5, 300.2) yy" =
      some ["10.7".data, "-5".data, "300.2".data] := by decide
  have h0 : pyFloatChars "10.7".data = some (107 / 10) := by with_unfolding_all rfl
  have h1 : pyFloatChars "-5".data = some (-5) := by with_unfolding_all rfl
  have h2 : pyFloatChars "300.2".data = some (3002 / 10) := by with_unfolding_all rfl
  have hmain := (C10_parser_amended "xx RGB(10.7, -5, 300.2) yy").2
    "10.7".data "-5".data "300.2".data [] (107 / 10) (-5) (3002 / 10)
    hfirst (by decide) (by decide) h0 h1 h2
    (fun p3 t ht => absurd ht (by simp))
  refine ⟨hfirst, h0, h1, h2, ?_, by with_unfolding_all rfl⟩
  rw [hmain]
  with_unfolding_all rfl

/-- Witness for C3 on a concrete channel mapping that passes for normal
vision at 4.5 but fails under protanopia. -/
theorem C3_cvd_only_iff_witness :
    cvdOnlySpec (some cvdOnlyMap) 4.5 ∧
    normal_pass_but_cvd_fail (some cvdOnlyMap) 4.5 = true := by
  have hspec : cvdOnlySpec (some cvdOnlyMap) 4.5 :=
    ⟨cvdOnlyMap, rfl, ⟨5, rfl, by norm_num⟩, Or.inl ⟨2, rfl, by norm_num⟩⟩
  exact ⟨hspec, (C3_cvd_only_iff.1 (some cvdOnlyMap) 4.5).mpr hspec⟩
